import Mathlib

/-!
Verification development for the SIS-Share daily rollup pipeline
(`scripts/build-daily-from-raw.mjs`, `src/lib/daily-rollups.mjs`,
`src/config/testInstances.mjs`).

The JavaScript source is shallowly embedded:
* JS strings are `String`; fields that may be absent (`undefined`/`null`)
  are `Option String`.  JS truthiness for strings means "present and
  non-empty".
* JS numbers are `JsNum`: an exact finite value (`ℤ`: every counter the
  pipeline handles is integral) or one of the IEEE specials `nan`, `inf`,
  `ninf` (reachable from raw JSON, e.g. `1e999`).  Rounding of finite
  doubles is not modelled; every theorem below only replays the very same
  addition sequences the code performs, so no algebraic identity that
  would be float-sensitive is used.
* `toLowerCase`/`toUpperCase`/`trim` are modelled on ASCII via code points.
* JS objects used as string-keyed maps are association lists in insertion
  order (JS preserves insertion order for the non-integer-like keys used
  here).
* The file system is `Fs := String → Option String`; `fs.writeFile` and
  `fs.rename` are explicit state transformers, and the pid/timestamp/random
  suffix of a temp file name is an explicit nondeterminism parameter.
-/

/-! ## JS number model -/

inductive JsNum where
  | num : ℤ → JsNum
  | nan : JsNum
  | inf : JsNum
  | ninf : JsNum
deriving DecidableEq

/-- IEEE-style addition on the `JsNum` carrier (finite part exact). -/
def JsNum.add : JsNum → JsNum → JsNum
  | .num a, .num b => .num (a + b)
  | .nan, _ => .nan
  | _, .nan => .nan
  | .inf, .ninf => .nan
  | .ninf, .inf => .nan
  | .inf, _ => .inf
  | _, .inf => .inf
  | .ninf, _ => .ninf
  | _, .ninf => .ninf

instance : Add JsNum := ⟨JsNum.add⟩

/-- JS truthiness of a number: `0`, `-0` and `NaN` are falsy. -/
def JsNum.truthy : JsNum → Bool
  | .num a => decide (a ≠ 0)
  | .nan => false
  | _ => true

/-- JS `x > 0` on numbers (`NaN > 0` is false). -/
def JsNum.pos : JsNum → Bool
  | .num a => decide (0 < a)
  | .inf => true
  | _ => false

/-- JS `x || 0` on a number. -/
def jsOrZero (n : JsNum) : JsNum := if n.truthy then n else .num 0

/-- JS `Number(v)` for a possibly absent numeric field
(`Number(undefined) = NaN`; present values are already numbers). -/
def jsNumber : Option JsNum → JsNum
  | none => .nan
  | some j => j

/-! ## JS string primitives (ASCII model) -/

/-- Whitespace recognized by the model of `String.prototype.trim` and of
`\s` (ASCII subset of the JS whitespace set). -/
def isJsWs (c : Char) : Bool :=
  c == ' ' || c == '\t' || c == '\n' || c == '\r'

/-- Model of JS `toLowerCase` on one char (ASCII range). -/
def lowerChar (c : Char) : Char :=
  if 65 ≤ c.toNat ∧ c.toNat ≤ 90 then Char.ofNat (c.toNat + 32) else c

/-- Model of JS `toUpperCase` on one char (ASCII range). -/
def upperChar (c : Char) : Char :=
  if 97 ≤ c.toNat ∧ c.toNat ≤ 122 then Char.ofNat (c.toNat - 32) else c

/-- Is `c` in `[a-z0-9]`, the class kept by `canonicalInstance`. -/
def isLowerAlnum (c : Char) : Bool :=
  (97 ≤ c.toNat && c.toNat ≤ 122) || (48 ≤ c.toNat && c.toNat ≤ 57)

def trimList (l : List Char) : List Char :=
  ((l.dropWhile isJsWs).reverse.dropWhile isJsWs).reverse

/-- Model of JS `String.prototype.trim`. -/
def jsTrim (s : String) : String := ⟨trimList s.data⟩

/-- Model of JS `toLowerCase` (ASCII). -/
def lowerStr (s : String) : String := ⟨s.data.map lowerChar⟩

/-- Model of JS `toUpperCase` (ASCII). -/
def upperStr (s : String) : String := ⟨s.data.map upperChar⟩

/-- Model of JS `String.prototype.startsWith`. -/
def jsStartsWith (s pre : String) : Bool := pre.data.isPrefixOf s.data

/-- Model of JS `String.prototype.endsWith`. -/
def jsEndsWith (s suf : String) : Bool := suf.data.isSuffixOf s.data

/-- Worker for the model of `String.prototype.split` with a non-empty
separator; the fuel (initially the scanned length plus one) only makes the
recursion structural and is never exhausted. -/
def jsSplitGo (sep : List Char) : Nat → List Char → List Char → List (List Char)
  | _, [], acc => [acc.reverse]
  | 0, l, acc => [acc.reverse ++ l]
  | fuel + 1, c :: rest, acc =>
    if sep.isPrefixOf (c :: rest) then
      acc.reverse :: jsSplitGo sep fuel ((c :: rest).drop sep.length) []
    else jsSplitGo sep fuel rest (c :: acc)

/-- Model of JS `String.prototype.split(sep)` for a non-empty separator. -/
def jsSplit (s sep : String) : List String :=
  (jsSplitGo sep.data (s.data.length + 1) s.data []).map fun l => ⟨l⟩

/-- Code-point comparison standing in for `localeCompare` ordering. -/
def charListLe : List Char → List Char → Bool
  | [], _ => true
  | _ :: _, [] => false
  | a :: as, b :: bs =>
    if a.toNat < b.toNat then true
    else if b.toNat < a.toNat then false
    else charListLe as bs

def insertSorted (x : String) : List String → List String
  | [] => [x]
  | y :: ys => if charListLe x.data y.data then x :: y :: ys else y :: insertSorted x ys

/-- Model of `Array.prototype.sort` with the `localeCompare` comparator
(modelled as code-point order; only its determinism matters here). -/
def sortStrings (l : List String) : List String := l.foldr insertSorted []

/-- First truthy value of a JS `a || b || ...` chain over possibly absent
strings (absent and `""` are falsy). -/
def firstTruthy (l : List (Option String)) : Option String :=
  l.findSome? fun v =>
    match v with
    | some s => if s = "" then none else some s
    | none => none

/-- JS `a ?? b ?? ...`: first present value (empty strings are kept). -/
def coalesce {α : Type} (l : List (Option α)) : Option α := l.findSome? id

/-- JS truthiness of a possibly absent string field. -/
def strTruthy : Option String → Bool
  | none => false
  | some s => s != ""

/-! ## Key Normalizer (`build-daily-from-raw.mjs` lines 17-78) -/

def UNKNOWN_INSTANCE : String := "unknown"

/-- `normalizeFiKey(value)`: falsy to `""`, else `trim` then `toLowerCase`. -/
def normalizeFiKey (value : Option String) : String :=
  match value with
  | none => ""
  | some s => if s = "" then "" else lowerStr (jsTrim s)

/-- `canonicalInstance(value)`: falsy to `"unknown"`, else trim, lower-case,
strip everything outside `[a-z0-9]`, empty result to `"unknown"`. -/
def canonicalInstance (value : Option String) : String :=
  match value with
  | none => UNKNOWN_INSTANCE
  | some s =>
    if s = "" then UNKNOWN_INSTANCE
    else
      let normalized : String := ⟨((jsTrim s).data.map lowerChar).filter isLowerAlnum⟩
      if normalized = "" then UNKNOWN_INSTANCE else normalized

/-- One step of the model of `replace(/[\s_]+/g, "-")`: `prevRun` records
whether the previous char was part of a whitespace/underscore run. -/
def hyphenateAux : Bool → List Char → List Char
  | _, [] => []
  | prevRun, c :: rest =>
    if isJsWs c || c == '_' then
      if prevRun then hyphenateAux true rest
      else '-' :: hyphenateAux true rest
    else c :: hyphenateAux false rest

/-- `formatInstanceDisplay(value)`: trim, lower-case, collapse
whitespace/underscore runs to `-`, empty to `"unknown"`, then the static
display override map. -/
def formatInstanceDisplay (value : Option String) : String :=
  match value with
  | none => UNKNOWN_INSTANCE
  | some s =>
    if s = "" then UNKNOWN_INSTANCE
    else
      let base : String := ⟨hyphenateAux false (lowerStr (jsTrim s)).data⟩
      let display := if base = "" then UNKNOWN_INSTANCE else base
      if display = "digitalonboarding" then "digital-onboarding" else display

/-- `adjustInstanceForFi(fiLookupKey, instanceValue)`. -/
def adjustInstanceForFi (fiLookupKey instanceValue : String) : String :=
  if normalizeFiKey (some fiLookupKey) = "advancial-prod"
      ∧ canonicalInstance (some instanceValue) = "default" then
    "advancial-prod"
  else instanceValue

/-- `adjustFiLookupForInstance(fiLookupKey, instanceValue)`. -/
def adjustFiLookupForInstance (fiLookupKey instanceValue : String) : String :=
  if normalizeFiKey (some fiLookupKey) = "default"
      ∧ canonicalInstance (some instanceValue) = "advancialprod" then
    "advancial-prod"
  else fiLookupKey

/-- `makeFiInstanceKey(fiKey, instance)`. -/
def makeFiInstanceKey (fiKey inst : String) : String :=
  lowerStr fiKey ++ "__" ++ canonicalInstance (some inst)

/-- The canonicalizer of `src/config/testInstances.mjs` (no `"unknown"`
fallback, empty stays empty). -/
def testCanon (s : String) : String :=
  ⟨((jsTrim s).data.map lowerChar).filter isLowerAlnum⟩

/-- `isTestInstanceName(value)`: membership of the canonical form in the
test-instance allowlist `["customer-dev"]`. -/
def isTestInstanceName (value : String) : Bool :=
  if value = "" then false else testCanon value == testCanon "customer-dev"

/-! ## String-keyed maps as association lists (JS objects, insertion order) -/

/-- Lookup in a string-keyed JS object modelled as an association list. -/
def alookup {β : Type} : List (String × β) → String → Option β
  | [], _ => none
  | (k', v) :: rest, k => if k' = k then some v else alookup rest k

/-- `m[k] = f(m[k])`, creating `(k, fresh)` first when `k` is absent and
then in either case mutating in place (JS keeps the key's position). -/
def aupsert {β : Type} : List (String × β) → String → β → (β → β) → List (String × β)
  | [], k, fresh, _ => [(k, fresh)]
  | (k', v) :: rest, k, fresh, f =>
    if k' = k then (k', f v) :: rest else (k', v) :: aupsert rest k fresh f

/-- One record's effect on the accumulating map: skip it when the key
function yields nothing, otherwise create-on-first-access (`init`) and
mutate (`add`) the bucket at that key. -/
def foldByKeyStep {γ β : Type} (kf : γ → Option String) (init : γ → β)
    (add : γ → β → β) (m : List (String × β)) (e : γ) : List (String × β) :=
  match kf e with
  | none => m
  | some k => aupsert m k (add e (init e)) (add e)

/-- The accumulation pattern shared by all three aggregators. -/
def foldByKey {γ β : Type} (kf : γ → Option String) (init : γ → β) (add : γ → β → β)
    (es : List γ) : List (String × β) :=
  es.foldl (foldByKeyStep kf init add) []

/-! ## Registry Resolver (`build-daily-from-raw.mjs` lines 90-131) -/

/-- `buildRegistryIndex` output: two case-insensitive indexes. -/
structure RegistryIndex where
  byLookup : List (String × String)
  byName : List (String × String)

def emptyRegistryIndex : RegistryIndex := ⟨[], []⟩

/-- `resolveFiKey(preferred, fallbackName, registryIndex)`. -/
def resolveFiKey (preferred fallbackName : Option String) (idx : RegistryIndex) :
    Option String :=
  let normalizedPreferred : Option String :=
    match preferred with
    | some s => if s = "" then none else some (lowerStr s)
    | none => none
  match normalizedPreferred with
  | some p =>
    match alookup idx.byLookup p with
    | some v => some v
    | none => some p
  | none =>
    let normalizedName : Option String :=
      match fallbackName with
      | some s => if s = "" then none else some (lowerStr s)
      | none => none
    match normalizedName with
    | some n =>
      match alookup idx.byName n with
      | some v => some v
      | none => some n
    | none => none

/-- `resolveFiFromHost(host)` (suffix `".cardupdatr.app"` is 15 chars). -/
def resolveFiFromHost (host : String) : Option (String × String) :=
  if jsEndsWith host ".cardupdatr.app" then
    let pre : String := ⟨host.data.take (host.data.length - 15)⟩
    if pre = "" then none
    else
      match jsSplit pre "." with
      | [] => none
      | [only] => some (only, only)
      | p0 :: p1 :: _ =>
        let inst := if p1 = "" then p0 else p1
        if p0 = "default" ∧ inst = "advancial-prod" then some ("advancial-prod", inst)
        else some (p0, inst)
  else none

/-! ## GA aggregator (`build-daily-from-raw.mjs` lines 158-244) -/

/-- One GA raw row; every field is a loosely-typed bag entry.  Numeric
fields hold the value `Number(...)` would produce for them. -/
structure GaRow where
  host : Option String := none
  hostname : Option String := none
  fi_key : Option String := none
  fi_lookup_key : Option String := none
  fi_name : Option String := none
  «instance» : Option String := none
  host_instance : Option String := none
  page : Option String := none
  pagePath : Option String := none
  pathname : Option String := none
  active_users : Option JsNum := none
  activeUsers : Option JsNum := none
  views : Option JsNum := none
  screenPageViews : Option JsNum := none
deriving DecidableEq

/-- A GA per-day raw payload (`{date, rows, error?}`). -/
structure GaRaw where
  rows : Option (List GaRow) := none
  error : Option String := none
deriving DecidableEq

/-- A GA per-(FI,instance) bucket. -/
structure GaBucket where
  fi_lookup_key : String
  «instance» : String
  instance_norm : String
  is_test : Bool
  select_merchants : JsNum
  user_data_collection : JsNum
  credential_entry : JsNum
deriving DecidableEq

/-- A GA per-FI bucket. -/
structure GaFiBucket where
  select_merchants : JsNum
  user_data_collection : JsNum
  credential_entry : JsNum
  instances : List String
deriving DecidableEq

/-- The values the GA record loop derives from one row before it touches
the buckets. -/
structure GaRowInfo where
  fiKey : String
  instanceDisplay : String
  normalizedInstance : String
  isTest : Bool
  key : String
  count : JsNum
  page : String
deriving DecidableEq

/-- The `host || hostname || ""` value of a GA row. -/
def gaRowHost (row : GaRow) : String :=
  (firstTruthy [row.host, row.hostname]).getD ""

/-- The resolved FI key of a GA row (`null` means the row is skipped). -/
def gaRowResolvedFi (idx : RegistryIndex) (row : GaRow) : Option String :=
  let parsedHost := resolveFiFromHost (gaRowHost row)
  let preferredKey := firstTruthy [row.fi_key, row.fi_lookup_key, parsedHost.map (·.1)]
  let fallbackName := firstTruthy [row.fi_name, parsedHost.map (·.1)]
  resolveFiKey preferredKey fallbackName idx

/-- The raw instance value of a GA row before `adjustInstanceForFi`. -/
def gaRowRawInstance (row : GaRow) : String :=
  (firstTruthy [row.«instance», row.host_instance,
    (resolveFiFromHost (gaRowHost row)).map (·.2)]).getD UNKNOWN_INSTANCE

/-- Everything the GA loop computes for one row; `none` iff the row is
skipped by `if (!fiKey) continue`. -/
def gaRowInfo (idx : RegistryIndex) (row : GaRow) : Option GaRowInfo :=
  match gaRowResolvedFi idx row with
  | none => none
  | some fiKey =>
    if fiKey = "" then none
    else
      let adjustedInstance := adjustInstanceForFi fiKey (gaRowRawInstance row)
      let instanceDisplay := formatInstanceDisplay (some adjustedInstance)
      let normalizedInstance := canonicalInstance (some instanceDisplay)
      some
        { fiKey := fiKey
          instanceDisplay := instanceDisplay
          normalizedInstance := normalizedInstance
          isTest := isTestInstanceName normalizedInstance
          key := makeFiInstanceKey fiKey normalizedInstance
          count := (coalesce [row.active_users, row.activeUsers, row.views,
            row.screenPageViews]).getD (.num 0)
          page := (firstTruthy [row.page, row.pagePath, row.pathname]).getD "" }

/-- A freshly created GA per-instance bucket. -/
def gaBucketInit (i : GaRowInfo) : GaBucket :=
  { fi_lookup_key := i.fiKey
    «instance» := i.instanceDisplay
    instance_norm := i.normalizedInstance
    is_test := i.isTest
    select_merchants := .num 0
    user_data_collection := .num 0
    credential_entry := .num 0 }

/-- One GA row's mutation of its bucket: stamp `is_test`, then bucket the
count by the first matching page prefix. -/
def gaBucketAdd (i : GaRowInfo) (b : GaBucket) : GaBucket :=
  let b := if i.isTest then { b with is_test := true } else b
  if jsStartsWith i.page "/select-merchants" then
    { b with select_merchants := b.select_merchants + i.count }
  else if jsStartsWith i.page "/user-data-collection" then
    { b with user_data_collection := b.user_data_collection + i.count }
  else if jsStartsWith i.page "/credential-entry" then
    { b with credential_entry := b.credential_entry + i.count }
  else b

/-- `ensureInstanceDisplay(list, display)` (the `localeCompare` sort is
modelled as code-point order; only determinism matters to the claims). -/
def ensureInstanceDisplay (list : List String) (display : String) : List String :=
  if display = "" then list
  else
    let normalized := canonicalInstance (some display)
    if list.any (fun v => canonicalInstance (some v) == normalized) then list
    else sortStrings (list ++ [display])

/-- The GA per-FI fold key: the bucket's stored `fi_lookup_key`. -/
def gaFiKf (e : GaBucket) : Option String := some e.fi_lookup_key

/-- A freshly created GA per-FI bucket. -/
def gaFiInit (_ : GaBucket) : GaFiBucket :=
  { select_merchants := .num 0
    user_data_collection := .num 0
    credential_entry := .num 0
    instances := [] }

/-- Folding one GA instance bucket into its FI bucket. -/
def gaFiAdd (e : GaBucket) (b : GaFiBucket) : GaFiBucket :=
  { select_merchants := b.select_merchants + e.select_merchants
    user_data_collection := b.user_data_collection + e.user_data_collection
    credential_entry := b.credential_entry + e.credential_entry
    instances := ensureInstanceDisplay b.instances e.«instance» }

/-- An aggregator's result: the two maps. -/
structure AggOut (β φ : Type) where
  byInstance : List (String × β)
  byFi : List (String × φ)

/-- `aggregateGaFromRaw(day, raw, registryIndex)` (the `day` argument only
feeds a console warning and is dropped). -/
def aggregateGaFromRaw (raw : Option GaRaw) (idx : RegistryIndex) :
    AggOut GaBucket GaFiBucket :=
  match raw with
  | none => ⟨[], []⟩
  | some r =>
    if strTruthy r.error then ⟨[], []⟩
    else
      let rows := r.rows.getD []
      let infos := rows.filterMap (gaRowInfo idx)
      let byInstance := foldByKey (fun i => some i.key) gaBucketInit gaBucketAdd infos
      let byFi := foldByKey gaFiKf gaFiInit gaFiAdd (byInstance.map Prod.snd)
      ⟨byInstance, byFi⟩

/-! ## Sessions aggregator (`build-daily-from-raw.mjs` lines 246-342) -/

/-- One raw session record. -/
structure SessionRec where
  financial_institution_lookup_key : Option String := none
  fi_lookup_key : Option String := none
  fi_name : Option String := none
  financial_institution : Option String := none
  financial_institution_name : Option String := none
  institution : Option String := none
  _instance : Option String := none
  «instance» : Option String := none
  instance_name : Option String := none
  org_name : Option String := none
  instance_slug : Option String := none
  total_jobs : Option JsNum := none
  successful_jobs : Option JsNum := none
deriving DecidableEq

/-- A sessions per-day raw payload (`{date, sessions, error?}`). -/
structure SessRaw where
  sessions : Option (List SessionRec) := none
  error : Option String := none
deriving DecidableEq

/-- `safeSessionFiKey(session, registryIndex)`: note the `??` chain for the
lookup key (an empty string present on the record still wins the chain). -/
def safeSessionFiKey (s : SessionRec) (idx : RegistryIndex) : String :=
  let lookup := coalesce [s.financial_institution_lookup_key, s.fi_lookup_key]
  let name := firstTruthy [s.fi_name, s.financial_institution,
    s.financial_institution_name, s.institution]
  (firstTruthy [resolveFiKey lookup name idx]).getD "unknown_fi"

/-- The session's raw instance value before `adjustInstanceForFi`. -/
def sessionRawInstance (s : SessionRec) : String :=
  (firstTruthy [s._instance, s.«instance», s.instance_name, s.org_name,
    s.instance_slug]).getD UNKNOWN_INSTANCE

/-- Everything the sessions loop derives from one record. -/
structure SessInfo where
  fiLookup : String
  normalizedFi : String
  instanceDisplay : String
  normalizedInstance : String
  isTest : Bool
  key : String
  totalJobs : JsNum
  successfulJobs : JsNum
deriving DecidableEq

def sessionInfo (idx : RegistryIndex) (s : SessionRec) : SessInfo :=
  let fiKey := safeSessionFiKey s idx
  let instanceValue := adjustInstanceForFi fiKey (sessionRawInstance s)
  let adjustedFiKey := adjustFiLookupForInstance fiKey instanceValue
  let fiLookup := (firstTruthy [some adjustedFiKey, some fiKey]).getD "unknown_fi"
  let normalizedFi := normalizeFiKey (some fiLookup)
  let instanceDisplay := formatInstanceDisplay (some instanceValue)
  let normalizedInstance := canonicalInstance (some instanceDisplay)
  { fiLookup := fiLookup
    normalizedFi := normalizedFi
    instanceDisplay := instanceDisplay
    normalizedInstance := normalizedInstance
    isTest := isTestInstanceName normalizedInstance
    key := makeFiInstanceKey normalizedFi normalizedInstance
    totalJobs := jsOrZero (jsNumber s.total_jobs)
    successfulJobs := jsOrZero (jsNumber s.successful_jobs) }

/-- A sessions per-(FI,instance) bucket. -/
structure SessBucket where
  fi_lookup_key : String
  fi_lookup_norm : String
  «instance» : String
  instance_norm : String
  is_test : Bool
  total_sessions : Nat
  sessions_with_jobs : Nat
  sessions_with_success : Nat
  total_jobs_sum : JsNum
  successful_jobs_sum : JsNum
deriving DecidableEq

def sessBucketInit (i : SessInfo) : SessBucket :=
  { fi_lookup_key := i.fiLookup
    fi_lookup_norm := i.normalizedFi
    «instance» := i.instanceDisplay
    instance_norm := i.normalizedInstance
    is_test := i.isTest
    total_sessions := 0
    sessions_with_jobs := 0
    sessions_with_success := 0
    total_jobs_sum := .num 0
    successful_jobs_sum := .num 0 }

def sessBucketAdd (i : SessInfo) (b : SessBucket) : SessBucket :=
  { b with
    is_test := b.is_test || i.isTest
    total_sessions := b.total_sessions + 1
    sessions_with_jobs := b.sessions_with_jobs + (if i.totalJobs.pos then 1 else 0)
    sessions_with_success :=
      b.sessions_with_success + (if i.successfulJobs.pos then 1 else 0)
    total_jobs_sum := b.total_jobs_sum + i.totalJobs
    successful_jobs_sum := b.successful_jobs_sum + i.successfulJobs }

/-- A sessions per-FI bucket. -/
structure SessFiBucket where
  total_sessions : Nat
  sessions_with_jobs : Nat
  sessions_with_success : Nat
  total_jobs_sum : JsNum
  successful_jobs_sum : JsNum
deriving DecidableEq

/-- The sessions per-FI fold key:
`entry.fi_lookup_norm || entry.fi_lookup_key.toLowerCase()`, skipping the
entry if that is still empty. -/
def sessFiKf (e : SessBucket) : Option String :=
  let k := if e.fi_lookup_norm = "" then lowerStr e.fi_lookup_key else e.fi_lookup_norm
  if k = "" then none else some k

def sessFiInit (_ : SessBucket) : SessFiBucket :=
  { total_sessions := 0
    sessions_with_jobs := 0
    sessions_with_success := 0
    total_jobs_sum := .num 0
    successful_jobs_sum := .num 0 }

/-- Folding one sessions instance bucket into its FI bucket; note the job
sums add `entry.total_jobs_sum || 0`, not the raw entry value. -/
def sessFiAdd (e : SessBucket) (b : SessFiBucket) : SessFiBucket :=
  { total_sessions := b.total_sessions + e.total_sessions
    sessions_with_jobs := b.sessions_with_jobs + e.sessions_with_jobs
    sessions_with_success := b.sessions_with_success + e.sessions_with_success
    total_jobs_sum := b.total_jobs_sum + jsOrZero e.total_jobs_sum
    successful_jobs_sum := b.successful_jobs_sum + jsOrZero e.successful_jobs_sum }

/-- `aggregateSessionsFromRaw(raw, registryIndex)`. -/
def aggregateSessionsFromRaw (raw : Option SessRaw) (idx : RegistryIndex) :
    AggOut SessBucket SessFiBucket :=
  match raw with
  | none => ⟨[], []⟩
  | some r =>
    if strTruthy r.error then ⟨[], []⟩
    else
      let infos := (r.sessions.getD []).map (sessionInfo idx)
      let byInstance := foldByKey (fun i => some i.key) sessBucketInit sessBucketAdd infos
      let byFi := foldByKey sessFiKf sessFiInit sessFiAdd (byInstance.map Prod.snd)
      ⟨byInstance, byFi⟩

/-! ## Placements aggregator (`build-daily-from-raw.mjs` lines 344-452) -/

/-- One raw placement record. -/
structure PlacementRec where
  fi_lookup_key : Option String := none
  financial_institution_lookup_key : Option String := none
  fi_name : Option String := none
  financial_institution : Option String := none
  issuer_name : Option String := none
  _instance : Option String := none
  «instance» : Option String := none
  instance_name : Option String := none
  org_name : Option String := none
  status : Option String := none
  termination_type : Option String := none
  termination : Option String := none
deriving DecidableEq

/-- A placements per-day raw payload (`{date, placements, error?}`). -/
structure PlacRaw where
  placements : Option (List PlacementRec) := none
  error : Option String := none
deriving DecidableEq

/-- `safePlacementFiKey(placement, registryIndex)` (a `||` chain here, in
contrast to the `??` chain of the sessions variant). -/
def safePlacementFiKey (p : PlacementRec) (idx : RegistryIndex) : String :=
  let lookup := firstTruthy [p.fi_lookup_key, p.financial_institution_lookup_key]
  let name := firstTruthy [p.fi_name, p.financial_institution, p.issuer_name]
  (firstTruthy [resolveFiKey lookup name idx]).getD "unknown_fi"

/-- `isSuccessfulPlacement(placement)`. -/
def isSuccessfulPlacement (p : PlacementRec) : Bool :=
  upperStr (p.status.getD "") == "SUCCESSFUL"
    || upperStr (p.termination_type.getD "") == "BILLABLE"

/-- The placement's raw instance value before `adjustInstanceForFi`. -/
def placementRawInstance (p : PlacementRec) : String :=
  (firstTruthy [p._instance, p.«instance», p.instance_name, p.org_name]).getD
    UNKNOWN_INSTANCE

/-- Everything the placements loop derives from one record. -/
structure PlacInfo where
  fiKey : String
  normalizedFi : String
  instanceDisplay : String
  normalizedInstance : String
  isTest : Bool
  key : String
  termKey : String
  success : Bool
deriving DecidableEq

def placementInfo (idx : RegistryIndex) (p : PlacementRec) : PlacInfo :=
  let baseFiKey := safePlacementFiKey p idx
  let instanceValue := adjustInstanceForFi baseFiKey (placementRawInstance p)
  let adjustedFiKey := adjustFiLookupForInstance baseFiKey instanceValue
  let fiKey := (firstTruthy [some adjustedFiKey]).getD baseFiKey
  let normalizedFi := normalizeFiKey (some fiKey)
  let instanceDisplay := formatInstanceDisplay (some instanceValue)
  let normalizedInstance := canonicalInstance (some instanceDisplay)
  { fiKey := fiKey
    normalizedFi := normalizedFi
    instanceDisplay := instanceDisplay
    normalizedInstance := normalizedInstance
    isTest := isTestInstanceName normalizedInstance
    key := makeFiInstanceKey normalizedFi normalizedInstance
    termKey := upperStr ((firstTruthy [p.termination_type, p.termination,
      p.status]).getD "UNKNOWN")
    success := isSuccessfulPlacement p }

/-- `m[t] = (m[t] || 0) + c` on a termination frequency map. -/
def termBump : List (String × Nat) → String → Nat → List (String × Nat)
  | [], t, c => [(t, c)]
  | (t', v) :: rest, t, c =>
    if t' = t then (t', v + c) :: rest else (t', v) :: termBump rest t c

/-- A placements per-(FI,instance) bucket. -/
structure PlacBucket where
  fi_lookup_key : String
  fi_lookup_norm : String
  «instance» : String
  instance_norm : String
  is_test : Bool
  total_placements : Nat
  successful_placements : Nat
  by_termination : List (String × Nat)
deriving DecidableEq

def placBucketInit (i : PlacInfo) : PlacBucket :=
  { fi_lookup_key := i.fiKey
    fi_lookup_norm := i.normalizedFi
    «instance» := i.instanceDisplay
    instance_norm := i.normalizedInstance
    is_test := i.isTest
    total_placements := 0
    successful_placements := 0
    by_termination := [] }

def placBucketAdd (i : PlacInfo) (b : PlacBucket) : PlacBucket :=
  { b with
    is_test := b.is_test || i.isTest
    total_placements := b.total_placements + 1
    successful_placements := b.successful_placements + (if i.success then 1 else 0)
    by_termination := termBump b.by_termination i.termKey 1 }

/-- A placements per-FI bucket (also the exact shape of the `placements`
slot of the daily document entries). -/
structure PlacFiBucket where
  total_placements : Nat
  successful_placements : Nat
  by_termination : List (String × Nat)
deriving DecidableEq

/-- The placements per-FI fold key:
`entry.fi_lookup_norm || entry.fi_lookup_key?.toLowerCase()`, skipping the
entry if that is still empty. -/
def placFiKf (e : PlacBucket) : Option String :=
  let k := if e.fi_lookup_norm = "" then lowerStr e.fi_lookup_key else e.fi_lookup_norm
  if k = "" then none else some k

def placFiInit (_ : PlacBucket) : PlacFiBucket :=
  { total_placements := 0
    successful_placements := 0
    by_termination := [] }

def placFiAdd (e : PlacBucket) (b : PlacFiBucket) : PlacFiBucket :=
  { total_placements := b.total_placements + e.total_placements
    successful_placements := b.successful_placements + e.successful_placements
    by_termination :=
      e.by_termination.foldl (fun m tc => termBump m tc.1 tc.2) b.by_termination }

/-- `aggregatePlacementsFromRaw(raw, registryIndex)`. -/
def aggregatePlacementsFromRaw (raw : Option PlacRaw) (idx : RegistryIndex) :
    AggOut PlacBucket PlacFiBucket :=
  match raw with
  | none => ⟨[], []⟩
  | some r =>
    if strTruthy r.error then ⟨[], []⟩
    else
      let infos := (r.placements.getD []).map (placementInfo idx)
      let byInstance := foldByKey (fun i => some i.key) placBucketInit placBucketAdd infos
      let byFi := foldByKey placFiKf placFiInit placFiAdd (byInstance.map Prod.snd)
      ⟨byInstance, byFi⟩

/-! ## Daily Document Builder (`src/lib/daily-rollups.mjs`) -/

/-- `parseInstanceKey(key)` of the rollup library. -/
def parseInstanceKey (key : String) : String × String :=
  match jsSplit key "__" with
  | [] => (key, UNKNOWN_INSTANCE)
  | [_] => (key, UNKNOWN_INSTANCE)
  | fi :: inst :: _ => (fi, if inst = "" then UNKNOWN_INSTANCE else inst)

/-- `chooseInstanceDisplay(...values)`. -/
def chooseInstanceDisplay (values : List (Option String)) : String :=
  let candidates := (values.filterMap id).filter
    (fun v => v != "" && v != UNKNOWN_INSTANCE)
  match candidates.find? (fun v => v.data.any (· == '-')) with
  | some preferred => preferred
  | none => candidates.headD UNKNOWN_INSTANCE

/-- Union of key lists in first-seen order (the JS `new Set([...a, ...b])`). -/
def dedupKeys (l : List String) : List String :=
  l.foldl (fun acc k => if acc.contains k then acc else acc ++ [k]) []

/-- The `ga` slot of a document entry. -/
structure DocGa where
  select_merchants : JsNum
  user_data_collection : JsNum
  credential_entry : JsNum
deriving DecidableEq

/-- The `sessions` slot of a document entry (`job_distribution` is always
`{}` here: the aggregator buckets carry no such field). -/
structure DocSessions where
  total : Nat
  with_jobs : Nat
  with_success : Nat
  without_jobs : Nat
  total_jobs : JsNum
  successful_jobs : JsNum
deriving DecidableEq

/-- One `fi` entry of the daily document. -/
structure FiEntry where
  ga : DocGa
  ga_instances : List String
  sessions : DocSessions
  placements : PlacFiBucket
deriving DecidableEq

/-- One `fi_instances` entry of the daily document. -/
structure FiInstanceEntry where
  fi_lookup_key : String
  «instance» : String
  is_test : Bool
  ga : DocGa
  sessions : DocSessions
  placements : PlacFiBucket
deriving DecidableEq

/-- The daily document. -/
structure DailyDoc where
  date : String
  src_ga : Bool
  src_sessions : Bool
  src_placements : Bool
  fi : List (String × FiEntry)
  fi_instances : List (String × FiInstanceEntry)
deriving DecidableEq

/-- The dedup loop over `gRaw?.instances` (first display form wins, dedup
by canonical form). -/
def dedupGaInstances (l : List String) : List String :=
  l.foldl
    (fun acc display =>
      if display = "" then acc
      else if acc.any
          (fun v => canonicalInstance (some v) == canonicalInstance (some display)) then
        acc
      else acc ++ [display])
    []

/-- The `ga` slot built from a GA per-FI bucket (each counter is `x || 0`). -/
def docGaOfFi (g : GaFiBucket) : DocGa :=
  { select_merchants := jsOrZero g.select_merchants
    user_data_collection := jsOrZero g.user_data_collection
    credential_entry := jsOrZero g.credential_entry }

/-- The `ga` slot built from a GA per-instance bucket. -/
def docGaOfInstance (g : GaBucket) : DocGa :=
  { select_merchants := jsOrZero g.select_merchants
    user_data_collection := jsOrZero g.user_data_collection
    credential_entry := jsOrZero g.credential_entry }

def zeroDocGa : DocGa := ⟨.num 0, .num 0, .num 0⟩

/-- The `sessions` slot built from a sessions per-FI bucket
(`without_jobs = max(0, total - with_jobs)` is `Nat` subtraction). -/
def docSessionsOfFi (s : SessFiBucket) : DocSessions :=
  { total := s.total_sessions
    with_jobs := s.sessions_with_jobs
    with_success := s.sessions_with_success
    without_jobs := s.total_sessions - s.sessions_with_jobs
    total_jobs := jsOrZero s.total_jobs_sum
    successful_jobs := jsOrZero s.successful_jobs_sum }

/-- The `sessions` slot built from a sessions per-instance bucket. -/
def docSessionsOfInstance (s : SessBucket) : DocSessions :=
  { total := s.total_sessions
    with_jobs := s.sessions_with_jobs
    with_success := s.sessions_with_success
    without_jobs := s.total_sessions - s.sessions_with_jobs
    total_jobs := jsOrZero s.total_jobs_sum
    successful_jobs := jsOrZero s.successful_jobs_sum }

def zeroDocSessions : DocSessions := ⟨0, 0, 0, 0, .num 0, .num 0⟩

def zeroPlacements : PlacFiBucket := ⟨0, 0, []⟩

/-- One `fi` entry (`buildDailyDocument`'s per-key body). -/
def mkFiEntry (gaByFi : List (String × GaFiBucket))
    (sessionsByFi : List (String × SessFiBucket))
    (placementsByFi : List (String × PlacFiBucket)) (key : String) : FiEntry :=
  let gRaw := alookup gaByFi key
  { ga := (gRaw.map docGaOfFi).getD zeroDocGa
    ga_instances := dedupGaInstances
      (((gRaw.map (·.instances)).getD []).filter (· != ""))
    sessions := ((alookup sessionsByFi key).map docSessionsOfFi).getD zeroDocSessions
    placements := (alookup placementsByFi key).getD zeroPlacements }

/-- One `fi_instances` entry (`buildDailyDocument`'s per-instance-key body). -/
def mkFiInstanceEntry (gaByInstance : List (String × GaBucket))
    (sessionsByInstance : List (String × SessBucket))
    (placementsByInstance : List (String × PlacBucket)) (instanceKey : String) :
    FiInstanceEntry :=
  let gaEntry := alookup gaByInstance instanceKey
  let sessionEntry := alookup sessionsByInstance instanceKey
  let placementEntry := alookup placementsByInstance instanceKey
  let parsed := parseInstanceKey instanceKey
  { fi_lookup_key := (firstTruthy [gaEntry.map (·.fi_lookup_key),
      sessionEntry.map (·.fi_lookup_key), placementEntry.map (·.fi_lookup_key),
      some parsed.1]).getD "unknown_fi"
    «instance» := chooseInstanceDisplay [gaEntry.map (·.«instance»),
      sessionEntry.map (·.«instance»), placementEntry.map (·.«instance»),
      some parsed.2]
    is_test := (gaEntry.map (·.is_test)).getD false
      || (sessionEntry.map (·.is_test)).getD false
      || (placementEntry.map (·.is_test)).getD false
    ga := (gaEntry.map docGaOfInstance).getD zeroDocGa
    sessions := (sessionEntry.map docSessionsOfInstance).getD zeroDocSessions
    placements :=
      match placementEntry with
      | some p => ⟨p.total_placements, p.successful_placements, p.by_termination⟩
      | none => zeroPlacements }

/-- `buildDailyDocument({day, gaByFi, gaByInstance, sessionsByFi,
sessionsByInstance, placementsByFi, placementsByInstance})`. -/
def buildDailyDocument (day : String) (gaByFi : List (String × GaFiBucket))
    (gaByInstance : List (String × GaBucket))
    (sessionsByFi : List (String × SessFiBucket))
    (sessionsByInstance : List (String × SessBucket))
    (placementsByFi : List (String × PlacFiBucket))
    (placementsByInstance : List (String × PlacBucket)) : DailyDoc :=
  let allKeys := dedupKeys (gaByFi.map Prod.fst ++ sessionsByFi.map Prod.fst
    ++ placementsByFi.map Prod.fst)
  let instanceKeys := dedupKeys (gaByInstance.map Prod.fst
    ++ sessionsByInstance.map Prod.fst ++ placementsByInstance.map Prod.fst)
  { date := day
    src_ga := !gaByFi.isEmpty
    src_sessions := !sessionsByFi.isEmpty
    src_placements := !placementsByFi.isEmpty
    fi := allKeys.map fun key =>
      (key, mkFiEntry gaByFi sessionsByFi placementsByFi key)
    fi_instances := instanceKeys.map fun instanceKey =>
      (instanceKey,
        mkFiInstanceEntry gaByInstance sessionsByInstance placementsByInstance
          instanceKey) }

/-! ## Serialization and the atomic write (`writeDailyFile`, Range Driver)

`JSON.stringify(doc, null, 2)` is modelled by a fixed deterministic
rendering `serializeDaily` (exact layout differs from Node's, which is
irrelevant to every claim below: they only compare rendered outputs with
each other).  `NaN`/`Infinity` render as `null` exactly as in JSON. -/

def jsonStr (s : String) : String := "\"" ++ s ++ "\""

def jsonNum : JsNum → String
  | .num q => toString q
  | _ => "null"

def jsonBool (b : Bool) : String := if b then "true" else "false"

def jsonObj (fields : List (String × String)) : String :=
  "\x7b" ++ String.intercalate ","
    (fields.map fun kv => jsonStr kv.1 ++ ":" ++ kv.2) ++ "\x7d"

def jsonArr (items : List String) : String :=
  "[" ++ String.intercalate "," items ++ "]"

def jsonTermMap (m : List (String × Nat)) : String :=
  jsonObj (m.map fun tc => (tc.1, toString tc.2))

def jsonDocGa (g : DocGa) : String :=
  jsonObj [("select_merchants", jsonNum g.select_merchants),
    ("user_data_collection", jsonNum g.user_data_collection),
    ("credential_entry", jsonNum g.credential_entry)]

def jsonDocSessions (s : DocSessions) : String :=
  jsonObj [("total", toString s.total), ("with_jobs", toString s.with_jobs),
    ("with_success", toString s.with_success),
    ("without_jobs", toString s.without_jobs),
    ("total_jobs", jsonNum s.total_jobs),
    ("successful_jobs", jsonNum s.successful_jobs),
    ("job_distribution", jsonObj [])]

def jsonPlacements (p : PlacFiBucket) : String :=
  jsonObj [("total_placements", toString p.total_placements),
    ("successful_placements", toString p.successful_placements),
    ("by_termination", jsonTermMap p.by_termination)]

def jsonFiEntry (e : FiEntry) : String :=
  jsonObj [("ga", jsonDocGa e.ga),
    ("ga_instances", jsonArr (e.ga_instances.map jsonStr)),
    ("sessions", jsonDocSessions e.sessions),
    ("placements", jsonPlacements e.placements)]

def jsonFiInstanceEntry (e : FiInstanceEntry) : String :=
  jsonObj [("fi_lookup_key", jsonStr e.fi_lookup_key),
    ("instance", jsonStr e.«instance»), ("is_test", jsonBool e.is_test),
    ("ga", jsonDocGa e.ga), ("sessions", jsonDocSessions e.sessions),
    ("placements", jsonPlacements e.placements)]

/-- The document as written to disk. -/
def serializeDaily (doc : DailyDoc) : String :=
  jsonObj [("date", jsonStr doc.date),
    ("sources", jsonObj [("ga", jsonBool doc.src_ga),
      ("sis_sessions", jsonBool doc.src_sessions),
      ("sis_placements", jsonBool doc.src_placements)]),
    ("fi", jsonObj (doc.fi.map fun ke => (ke.1, jsonFiEntry ke.2))),
    ("fi_instances", jsonObj
      (doc.fi_instances.map fun ke => (ke.1, jsonFiInstanceEntry ke.2)))]

/-- The file system: path to contents. -/
def Fs : Type := String → Option String

/-- `fs.writeFile(p, c)`. -/
def fsWrite (fs : Fs) (p c : String) : Fs :=
  fun q => if q = p then some c else fs q

/-- `fs.rename(src, dst)`: atomic replace of `dst` by `src`. -/
def fsRename (fs : Fs) (src dst : String) : Fs :=
  fun q => if q = src then none else if q = dst then fs src else fs q

/-- `path.join(DAILY_OUTPUT_DIR, day + ".json")`. -/
def dailyFilePath (day : String) : String := "data/daily/" ++ day ++ ".json"

/-- The temp sibling `.${day}.json.tmp-${pid}-${Date.now()}-${random}`;
`nd` is the nondeterministic pid/timestamp/random suffix. -/
def tmpFilePath (day nd : String) : String :=
  "data/daily/" ++ "." ++ day ++ ".json.tmp-" ++ nd

/-- `writeDailyFile(baseDir, day, doc)`: write the temp sibling, then
rename it over the dated target. -/
def writeDailyFile (fs : Fs) (day : String) (doc : DailyDoc) (nd : String) : Fs :=
  let contents := serializeDaily doc
  let tmpPath := tmpFilePath day nd
  fsRename (fsWrite fs tmpPath contents) tmpPath (dailyFilePath day)

/-- The per-day raw inputs available to a range run. -/
def RawStore : Type := String → Option GaRaw × Option SessRaw × Option PlacRaw

/-- The document the pipeline builds for one day from its three raw
payloads. -/
def dayDoc (idx : RegistryIndex) (raws : RawStore) (day : String) : DailyDoc :=
  let ga := aggregateGaFromRaw (raws day).1 idx
  let sess := aggregateSessionsFromRaw (raws day).2.1 idx
  let plac := aggregatePlacementsFromRaw (raws day).2.2 idx
  buildDailyDocument day ga.byFi ga.byInstance sess.byFi sess.byInstance
    plac.byFi plac.byInstance

/-- One day of the range loop: skip when all three raws are absent
(`allSourcesMissing`), otherwise aggregate, build and write. -/
def processDay (idx : RegistryIndex) (raws : RawStore) (nd : String → String)
    (fs : Fs) (day : String) : Fs :=
  match raws day with
  | (none, none, none) => fs
  | _ => writeDailyFile fs day (dayDoc idx raws day) (nd day)

/-- `buildDailyFromRawRange`: registry loaded once, then the per-day loop
over the enumerated (validated `YYYY-MM-DD`) dates. -/
def buildDailyFromRawRange (idx : RegistryIndex) (raws : RawStore)
    (nd : String → String) (dates : List String) (fs : Fs) : Fs :=
  dates.foldl (processDay idx raws nd) fs

/-- Dates reaching the range loop were validated against
`/^\d{4}-\d{2}-\d{2}$/`; the proofs only need that they start with a
digit (hence differ from the dot-prefixed temp names). -/
def isoDayLike (d : String) : Bool :=
  match d.data with
  | [] => false
  | c :: _ => c.isDigit

/-! ## The group-fold lemma: a keyed accumulation, looked up at a key,
equals the fold of exactly the records grouped at that key, in order. -/

/-- The specification-side reading of "`byFi[k]` is the additive fold of
the entries grouped at `k`": filter the entries whose key is `k` and fold
them, in order, from a fresh bucket. -/
def groupFoldSpec {γ β : Type} (kf : γ → Option String) (init : γ → β)
    (add : γ → β → β) (es : List γ) (k : String) : Option β :=
  match es.filter (fun e => kf e == some k) with
  | [] => none
  | e :: rest => some (rest.foldl (fun b x => add x b) (add e (init e)))

theorem alookup_aupsert_self {β : Type} (m : List (String × β)) (k : String)
    (fresh : β) (f : β → β) :
    alookup (aupsert m k fresh f) k = some ((alookup m k).elim fresh f) := by
  induction m with
  | nil => simp [aupsert, alookup]
  | cons hd tl ih =>
    obtain ⟨k', v⟩ := hd
    by_cases h : k' = k
    · subst h
      simp [aupsert, alookup]
    · simp [aupsert, alookup, h, ih]

theorem alookup_aupsert_ne {β : Type} (m : List (String × β)) {k' k : String}
    (h : k' ≠ k) (fresh : β) (f : β → β) :
    alookup (aupsert m k' fresh f) k = alookup m k := by
  induction m with
  | nil => simp [aupsert, alookup, h]
  | cons hd tl ih =>
    obtain ⟨k'', v⟩ := hd
    by_cases h2 : k'' = k'
    · subst h2
      simp [aupsert, alookup, h]
    · by_cases h3 : k'' = k <;> simp [aupsert, alookup, h2, h3, ih, Ne.symm h]

theorem foldByKey_go {γ β : Type} (kf : γ → Option String) (init : γ → β)
    (add : γ → β → β) (k : String) :
    ∀ (es : List γ) (m : List (String × β)),
      alookup (es.foldl (foldByKeyStep kf init add) m) k =
        match alookup m k with
        | some b => some ((es.filter (fun e => kf e == some k)).foldl
            (fun b x => add x b) b)
        | none => groupFoldSpec kf init add es k := by
  intro es
  induction es with
  | nil =>
    intro m
    cases h : alookup m k <;> simp [groupFoldSpec, h]
  | cons e es ih =>
    intro m
    rw [List.foldl_cons]
    cases hkf : kf e with
    | none =>
      have hstep : foldByKeyStep kf init add m e = m := by
        simp [foldByKeyStep, hkf]
      have hfilter : (fun x => kf x == some k) e = false := by
        simp [hkf]
      rw [hstep, ih m]
      cases hm : alookup m k <;>
        simp [groupFoldSpec, List.filter_cons, hfilter, hkf]
    | some ke =>
      have hstep : foldByKeyStep kf init add m e =
          aupsert m ke (add e (init e)) (add e) := by
        simp [foldByKeyStep, hkf]
      rw [hstep, ih _]
      by_cases hk : ke = k
      · subst hk
        rw [alookup_aupsert_self]
        have hfilter : (fun x => kf x == some ke) e = true := by
          simp [hkf]
        cases hm : alookup m ke <;>
          simp [groupFoldSpec, List.filter_cons, hfilter, hm, Option.elim]
      · rw [alookup_aupsert_ne _ hk]
        have hfilter : (fun x => kf x == some k) e = false := by
          simp [hkf, hk]
        cases hm : alookup m k <;>
          simp [groupFoldSpec, List.filter_cons, hfilter, hm]

/-- Looking a key up in a keyed accumulation gives exactly the group fold
of the records carrying that key. -/
theorem alookup_foldByKey {γ β : Type} (kf : γ → Option String) (init : γ → β)
    (add : γ → β → β) (es : List γ) (k : String) :
    alookup (foldByKey kf init add es) k = groupFoldSpec kf init add es k := by
  have h := foldByKey_go kf init add k es []
  simpa [foldByKey, alookup] using h

/-! ## Bucket-invariant preservation through a keyed accumulation. -/

theorem aupsert_inv {β : Type} (I : β → Prop) {m : List (String × β)}
    {k : String} {fresh : β} {f : β → β} (hm : ∀ p ∈ m, I p.2) (hf : I fresh)
    (hstep : ∀ b, I b → I (f b)) : ∀ p ∈ aupsert m k fresh f, I p.2 := by
  induction m with
  | nil =>
    intro p hp
    simp [aupsert] at hp
    subst hp
    exact hf
  | cons hd tl ih =>
    obtain ⟨k', v⟩ := hd
    intro p hp
    by_cases h : k' = k
    · subst h
      simp [aupsert] at hp
      rcases hp with hp | hp
      · subst hp
        exact hstep v (hm (k', v) (by simp))
      · exact hm p (by simp [hp])
    · simp [aupsert, h] at hp
      rcases hp with hp | hp
      · subst hp
        exact hm (k', v) (by simp)
      · exact ih (fun q hq => hm q (by simp [hq])) p hp

theorem foldByKey_inv {γ β : Type} (kf : γ → Option String) (init : γ → β)
    (add : γ → β → β) (I : β → Prop) :
    ∀ (es : List γ) (m : List (String × β)), (∀ e ∈ es, I (add e (init e))) →
      (∀ e ∈ es, ∀ b, I b → I (add e b)) → (∀ p ∈ m, I p.2) →
      ∀ p ∈ es.foldl (foldByKeyStep kf init add) m, I p.2 := by
  intro es
  induction es with
  | nil => intro m _ _ hm; simpa using hm
  | cons e es ih =>
    intro m hInit hAdd hm
    rw [List.foldl_cons]
    apply ih _ (fun x hx => hInit x (by simp [hx]))
      (fun x hx => hAdd x (by simp [hx]))
    cases hkf : kf e with
    | none => simpa [foldByKeyStep, hkf] using hm
    | some ke =>
      simp only [foldByKeyStep, hkf]
      exact aupsert_inv I hm (hInit e (by simp)) (hAdd e (by simp))

/-- Every bucket of a keyed accumulation satisfies an invariant that holds
at creation and is preserved by mutation (both needed only for the records
actually present). -/
theorem foldByKey_mem_inv {γ β : Type} (kf : γ → Option String) (init : γ → β)
    (add : γ → β → β) (I : β → Prop) (es : List γ)
    (hInit : ∀ e ∈ es, I (add e (init e)))
    (hAdd : ∀ e ∈ es, ∀ b, I b → I (add e b)) :
    ∀ p ∈ foldByKey kf init add es, I p.2 :=
  foldByKey_inv kf init add I es [] hInit hAdd (by simp)

/-- A successful lookup is a member of the association list. -/
theorem alookup_mem {β : Type} {l : List (String × β)} {k : String} {b : β}
    (h : alookup l k = some b) : (k, b) ∈ l := by
  induction l with
  | nil => simp [alookup] at h
  | cons hd tl ih =>
    obtain ⟨k', v⟩ := hd
    by_cases hk : k' = k
    · subst hk
      simp [alookup] at h
      simp [h]
    · simp [alookup, hk] at h
      simp [ih h]

/-! ## Termination-frequency-map sums -/

/-- Total count held by a `by_termination` frequency map. -/
def termSum (m : List (String × Nat)) : Nat := (m.map Prod.snd).sum

theorem termSum_termBump (m : List (String × Nat)) (t : String) (c : Nat) :
    termSum (termBump m t c) = termSum m + c := by
  induction m with
  | nil => simp [termBump, termSum]
  | cons hd tl ih =>
    obtain ⟨t', v⟩ := hd
    by_cases h : t' = t
    · subst h
      simp [termBump, termSum]
      omega
    · simp [termBump, termSum, h] at *
      omega

theorem termSum_termMerge (e : List (String × Nat)) :
    ∀ m, termSum (e.foldl (fun m tc => termBump m tc.1 tc.2) m) =
      termSum m + termSum e := by
  induction e with
  | nil => intro m; simp [termSum]
  | cons hd tl ih =>
    intro m
    rw [List.foldl_cons, ih, termSum_termBump]
    simp [termSum]
    omega

/-- Every per-instance placements bucket has its termination breakdown
summing to its placement total. -/
theorem aggPlacements_byInstance_termSum (raw : Option PlacRaw)
    (idx : RegistryIndex) :
    ∀ p ∈ (aggregatePlacementsFromRaw raw idx).byInstance,
      termSum p.2.by_termination = p.2.total_placements := by
  cases raw with
  | none => simp [aggregatePlacementsFromRaw]
  | some r =>
    cases herr : strTruthy r.error with
    | true => simp [aggregatePlacementsFromRaw, herr]
    | false =>
      simp only [aggregatePlacementsFromRaw, herr, Bool.false_eq_true, if_false]
      intro p hp
      refine foldByKey_mem_inv (fun i => some i.key) placBucketInit placBucketAdd
        (fun b => termSum b.by_termination = b.total_placements) _ ?_ ?_ p hp
      · intro i _
        simp [placBucketAdd, placBucketInit, termBump, termSum]
      · intro i _ b hb
        simp [placBucketAdd, termSum_termBump, hb]

/-- Every per-FI placements bucket has its termination breakdown summing
to its placement total. -/
theorem aggPlacements_byFi_termSum (raw : Option PlacRaw) (idx : RegistryIndex) :
    ∀ p ∈ (aggregatePlacementsFromRaw raw idx).byFi,
      termSum p.2.by_termination = p.2.total_placements := by
  cases raw with
  | none => simp [aggregatePlacementsFromRaw]
  | some r =>
    cases herr : strTruthy r.error with
    | true => simp [aggregatePlacementsFromRaw, herr]
    | false =>
      have hinst := aggPlacements_byInstance_termSum (some r) idx
      simp only [aggregatePlacementsFromRaw, herr, Bool.false_eq_true, if_false] at hinst ⊢
      intro q hq
      refine foldByKey_mem_inv placFiKf placFiInit placFiAdd
        (fun b => termSum b.by_termination = b.total_placements) _ ?_ ?_ q hq
      · intro e he
        obtain ⟨p, hp, hpe⟩ := List.mem_map.mp he
        have hIe : termSum e.by_termination = e.total_placements := by
          have h2 := hinst p hp
          rw [hpe] at h2
          exact h2
        show termSum (placFiAdd e (placFiInit e)).by_termination
          = (placFiAdd e (placFiInit e)).total_placements
        simp only [placFiAdd, placFiInit]
        rw [termSum_termMerge, hIe]
        simp [termSum]
      · intro e he b hb
        obtain ⟨p, hp, hpe⟩ := List.mem_map.mp he
        have hIe : termSum e.by_termination = e.total_placements := by
          have h2 := hinst p hp
          rw [hpe] at h2
          exact h2
        show termSum (placFiAdd e b).by_termination = (placFiAdd e b).total_placements
        simp only [placFiAdd]
        rw [termSum_termMerge, hIe, hb]

/-! ## Canonicalization: fixed points of `canonicalInstance` -/

theorem dropWhile_eq_self_of_all {p : Char → Bool} {l : List Char}
    (h : ∀ c ∈ l, p c = false) : l.dropWhile p = l := by
  cases l with
  | nil => rfl
  | cons c cs => simp [List.dropWhile_cons, h c (by simp)]

theorem map_eq_self_of_all {f : Char → Char} {l : List Char}
    (h : ∀ c ∈ l, f c = c) : l.map f = l := by
  induction l with
  | nil => rfl
  | cons c cs ih => simp [h c (by simp), ih (fun x hx => h x (by simp [hx]))]

theorem filter_eq_self_of_all {p : Char → Bool} {l : List Char}
    (h : ∀ c ∈ l, p c = true) : l.filter p = l := by
  induction l with
  | nil => rfl
  | cons c cs ih => simp [List.filter_cons, h c (by simp),
      ih (fun x hx => h x (by simp [hx]))]

theorem isJsWs_eq_false_of_alnum {c : Char} (h : isLowerAlnum c = true) :
    isJsWs c = false := by
  cases hw : isJsWs c with
  | false => rfl
  | true =>
    have hc : ((c = ' ' ∨ c = '\t') ∨ c = '\n') ∨ c = '\r' := by
      simpa [isJsWs] using hw
    rcases hc with ((rfl | rfl) | rfl) | rfl <;> exact absurd h (by decide)

theorem lowerChar_eq_self_of_alnum {c : Char} (h : isLowerAlnum c = true) :
    lowerChar c = c := by
  have h2 : (97 ≤ c.toNat ∧ c.toNat ≤ 122) ∨ (48 ≤ c.toNat ∧ c.toNat ≤ 57) := by
    simpa [isLowerAlnum] using h
  rw [lowerChar, if_neg (by omega : ¬(65 ≤ c.toNat ∧ c.toNat ≤ 90))]

/-- A non-empty string of `[a-z0-9]` chars is a fixed point of
`canonicalInstance`. -/
theorem canonicalInstance_fixed (t : String) (hne : t ≠ "")
    (hall : ∀ c ∈ t.data, isLowerAlnum c = true) :
    canonicalInstance (some t) = t := by
  have hws : ∀ c ∈ t.data, isJsWs c = false :=
    fun c hc => isJsWs_eq_false_of_alnum (hall c hc)
  have htrim : trimList t.data = t.data := by
    unfold trimList
    rw [dropWhile_eq_self_of_all hws,
      dropWhile_eq_self_of_all (fun c hc => hws c (List.mem_reverse.mp hc)),
      List.reverse_reverse]
  have hdata : ((jsTrim t).data.map lowerChar).filter isLowerAlnum = t.data := by
    show ((trimList t.data).map lowerChar).filter isLowerAlnum = t.data
    rw [htrim, map_eq_self_of_all (fun c hc => lowerChar_eq_self_of_alnum (hall c hc)),
      filter_eq_self_of_all hall]
  simp [canonicalInstance, hne, hdata]

/-- `canonicalInstance` on a string either falls back to `"unknown"` or
returns the non-empty stripped form. -/
theorem canonicalInstance_out (s : String) :
    canonicalInstance (some s) = UNKNOWN_INSTANCE
      ∨ (canonicalInstance (some s) ≠ ""
          ∧ (canonicalInstance (some s)).data
              = ((jsTrim s).data.map lowerChar).filter isLowerAlnum) := by
  by_cases hs : s = ""
  · left
    simp [canonicalInstance, hs]
  · by_cases hn : (⟨((jsTrim s).data.map lowerChar).filter isLowerAlnum⟩ : String) = ""
    · left
      simp [canonicalInstance, hs, hn]
    · right
      simp [canonicalInstance, hs, hn]

/-! ## Path facts and the per-day write -/

theorem strData_append (s t : String) : (s ++ t).data = s.data ++ t.data := by
  cases s
  cases t
  rfl

theorem strExt {s t : String} (h : s.data = t.data) : s = t := by
  cases s
  cases t
  simp only at h
  rw [h]

theorem dailyFilePath_data (day : String) :
    (dailyFilePath day).data = "data/daily/".data ++ (day.data ++ ".json".data) := by
  simp [dailyFilePath, strData_append]

theorem tmpFilePath_data (day nd : String) :
    (tmpFilePath day nd).data =
      "data/daily/".data ++ ('.' :: (day.data ++ (".json.tmp-".data ++ nd.data))) := by
  simp [tmpFilePath, strData_append]

/-- A validated date's target file never collides with any temp sibling. -/
theorem dailyFilePath_ne_tmp {day day' nd : String} (h : isoDayLike day = true) :
    dailyFilePath day ≠ tmpFilePath day' nd := by
  intro heq
  have hdata := congrArg String.data heq
  rw [dailyFilePath_data, tmpFilePath_data] at hdata
  have hcancel := List.append_cancel_left hdata
  cases hd : day.data with
  | nil => simp [isoDayLike, hd] at h
  | cons c cs =>
    rw [hd] at hcancel
    have hc : c = '.' := by
      have := congrArg (List.headD · ' ') hcancel
      simpa using this
    subst hc
    simp [isoDayLike, hd] at h

/-- Distinct dates write to distinct target files. -/
theorem dailyFilePath_inj {d1 d2 : String} (h : dailyFilePath d1 = dailyFilePath d2) :
    d1 = d2 := by
  have hdata := congrArg String.data h
  rw [dailyFilePath_data, dailyFilePath_data] at hdata
  exact strExt (List.append_cancel_right (List.append_cancel_left hdata))

/-- After the rename, the dated target holds exactly the serialized
document. -/
theorem writeDailyFile_target {day : String} (fs : Fs) (doc : DailyDoc) (nd : String)
    (h : isoDayLike day = true) :
    (writeDailyFile fs day doc nd) (dailyFilePath day) = some (serializeDaily doc) := by
  simp [writeDailyFile, fsRename, fsWrite, dailyFilePath_ne_tmp h]

/-- A write for another (validated) date, or any temp traffic, leaves a
date's target untouched. -/
theorem writeDailyFile_other {day x : String} (fs : Fs) (doc : DailyDoc) (nd : String)
    (hIso : isoDayLike day = true) (hne : x ≠ day) :
    (writeDailyFile fs x doc nd) (dailyFilePath day) = fs (dailyFilePath day) := by
  have h2 : dailyFilePath day ≠ dailyFilePath x :=
    fun hh => hne (dailyFilePath_inj hh).symm
  simp [writeDailyFile, fsRename, fsWrite, dailyFilePath_ne_tmp hIso, h2]

theorem processDay_other (idx : RegistryIndex) (raws : RawStore) (nd : String → String)
    {day x : String} (fs : Fs) (hIso : isoDayLike day = true) (hne : x ≠ day) :
    (processDay idx raws nd fs x) (dailyFilePath day) = fs (dailyFilePath day) := by
  rcases hr : raws x with ⟨g, sr, pr⟩
  cases g <;> cases sr <;> cases pr <;>
    simp only [processDay, hr] <;>
    first
      | rfl
      | exact writeDailyFile_other fs _ _ hIso hne

theorem runRange_notMem (idx : RegistryIndex) (raws : RawStore) (nd : String → String)
    {day : String} (hIso : isoDayLike day = true) :
    ∀ (dates : List String) (fs : Fs), day ∉ dates →
      (buildDailyFromRawRange idx raws nd dates fs) (dailyFilePath day)
        = fs (dailyFilePath day) := by
  intro dates
  induction dates with
  | nil => intro fs _; rfl
  | cons x rest ih =>
    intro fs hmem
    rw [buildDailyFromRawRange, List.foldl_cons]
    have hx : x ≠ day := fun hh => hmem (by simp [hh])
    have hrest : day ∉ rest := fun hh => hmem (by simp [hh])
    rw [show List.foldl (processDay idx raws nd) (processDay idx raws nd fs x) rest
        = buildDailyFromRawRange idx raws nd rest (processDay idx raws nd fs x) from rfl]
    rw [ih _ hrest, processDay_other idx raws nd fs hIso hx]

/-- What a range run leaves at a date's target: untouched when that day's
raws are all absent, else exactly the serialized day document — in
particular independent of the nondeterministic temp-name material and of
anything previously on disk. -/
theorem runRange_lookup (idx : RegistryIndex) (raws : RawStore) (nd : String → String)
    {day : String} (hIso : isoDayLike day = true) :
    ∀ (dates : List String) (fs : Fs), day ∈ dates →
      (buildDailyFromRawRange idx raws nd dates fs) (dailyFilePath day)
        = if raws day = (none, none, none) then fs (dailyFilePath day)
          else some (serializeDaily (dayDoc idx raws day)) := by
  intro dates
  induction dates with
  | nil => intro fs hmem; simp at hmem
  | cons x rest ih =>
    intro fs hmem
    rw [buildDailyFromRawRange, List.foldl_cons]
    rw [show List.foldl (processDay idx raws nd) (processDay idx raws nd fs x) rest
        = buildDailyFromRawRange idx raws nd rest (processDay idx raws nd fs x) from rfl]
    by_cases hx : day ∈ rest
    · rw [ih _ hx]
      by_cases hskip : raws day = (none, none, none)
      · rw [if_pos hskip, if_pos hskip]
        by_cases hxd : x = day
        · subst hxd
          simp [processDay, hskip]
        · exact processDay_other idx raws nd fs hIso hxd
      · rw [if_neg hskip, if_neg hskip]
    · have hxd : x = day := by
        rcases List.mem_cons.mp hmem with hh | hh
        · exact hh.symm
        · exact absurd hh hx
      subst hxd
      rw [runRange_notMem idx raws nd hIso rest _ hx]
      by_cases hskip : raws x = (none, none, none)
      · rw [if_pos hskip]
        simp [processDay, hskip]
      · rw [if_neg hskip]
        rcases hr : raws x with ⟨g, sr, pr⟩
        cases g <;> cases sr <;> cases pr <;>
          simp only [processDay, hr] <;>
          first
            | (exact absurd hr hskip)
            | exact writeDailyFile_target fs _ _ hIso

/-! ## Small facts about truthy chains and canonical forms -/

theorem firstTruthy_ne_empty :
    ∀ {l : List (Option String)} {v : String}, firstTruthy l = some v → v ≠ "" := by
  intro l
  induction l with
  | nil => intro v h; simp [firstTruthy] at h
  | cons a rest ih =>
    intro v h
    cases a with
    | none =>
      rw [firstTruthy, List.findSome?_cons] at h
      exact ih h
    | some s =>
      by_cases hs : s = ""
      · rw [firstTruthy, List.findSome?_cons] at h
        simp only [hs, if_pos rfl] at h
        exact ih h
      · rw [firstTruthy, List.findSome?_cons] at h
        simp only [hs, if_neg hs] at h
        cases h
        exact hs

theorem firstTruthy_cons_ne {s : String} (h : s ≠ "") (rest : List (Option String)) :
    firstTruthy (some s :: rest) = some s := by
  simp [firstTruthy, List.findSome?_cons, h]

theorem getD_firstTruthy_single_ne (x : Option String) :
    (firstTruthy [x]).getD "unknown_fi" ≠ "" := by
  cases hft : firstTruthy [x] with
  | none => simp
  | some v => simpa using firstTruthy_ne_empty hft

theorem safeSessionFiKey_ne_empty (s : SessionRec) (idx : RegistryIndex) :
    safeSessionFiKey s idx ≠ "" := by
  rw [safeSessionFiKey]
  exact getD_firstTruthy_single_ne _

theorem safePlacementFiKey_ne_empty (p : PlacementRec) (idx : RegistryIndex) :
    safePlacementFiKey p idx ≠ "" := by
  rw [safePlacementFiKey]
  exact getD_firstTruthy_single_ne _

theorem canonicalInstance_idem_aux (s : String) :
    canonicalInstance (some (canonicalInstance (some s))) = canonicalInstance (some s) := by
  rcases canonicalInstance_out s with h | ⟨hne, hdata⟩
  · rw [h]
    decide
  · refine canonicalInstance_fixed _ hne ?_
    intro c hc
    rw [hdata] at hc
    exact (List.mem_filter.mp hc).2

theorem canonicalInstance_all_alnum (s : String) :
    ∀ c ∈ (canonicalInstance (some s)).data, isLowerAlnum c = true := by
  rcases canonicalInstance_out s with h | ⟨_, hdata⟩
  · rw [h]
    decide
  · intro c hc
    rw [hdata] at hc
    exact (List.mem_filter.mp hc).2

theorem canonicalInstance_ne_empty (s : String) : canonicalInstance (some s) ≠ "" := by
  rcases canonicalInstance_out s with h | ⟨hne, _⟩
  · rw [h]
    decide
  · exact hne

theorem jsStartsWith_either_prefix {s p q : String} (hp : jsStartsWith s p = true)
    (hq : jsStartsWith s q = true) : p.data <+: q.data ∨ q.data <+: p.data :=
  List.prefix_or_prefix_of_prefix (List.isPrefixOf_iff_prefix.mp hp)
    (List.isPrefixOf_iff_prefix.mp hq)

/-! ## Claim theorems -/

/-- C4: `canonicalInstance` is idempotent on every string, total on falsy
input (absent and `""` both give `"unknown"`), never returns the empty
string, and every output character lies in `[a-z0-9]` (so the function
lower-cases and strips everything else). -/
theorem canonicalInstance_idempotent_total (s : String) :
    canonicalInstance (some (canonicalInstance (some s))) = canonicalInstance (some s)
    ∧ canonicalInstance none = "unknown"
    ∧ canonicalInstance (some "") = "unknown"
    ∧ canonicalInstance (some s) ≠ ""
    ∧ (canonicalInstance (some s)).data.all isLowerAlnum = true := by
  refine ⟨canonicalInstance_idem_aux s, by decide, by decide,
    canonicalInstance_ne_empty s, ?_⟩
  rw [List.all_eq_true]
  exact canonicalInstance_all_alnum s

/-- C1 (amended): for each of the three aggregators and every raw payload,
looking any key up in `byFi` yields exactly the fold, in insertion order,
of the `byInstance` entries grouped at that key by the entry's FI group
key — using the code's per-field accumulation, which for the sessions job
sums adds `entry.total_jobs_sum || 0` (a falsy, e.g. `NaN`, instance
subtotal is coerced to `0`) and is the plain field-wise sum for every
other counter, including the `by_termination` frequency maps. -/
theorem byFi_is_group_fold_of_byInstance (gaRaw : Option GaRaw)
    (sessRaw : Option SessRaw) (placRaw : Option PlacRaw) (idx : RegistryIndex)
    (k : String) :
    alookup (aggregateGaFromRaw gaRaw idx).byFi k
      = groupFoldSpec gaFiKf gaFiInit gaFiAdd
          ((aggregateGaFromRaw gaRaw idx).byInstance.map Prod.snd) k
    ∧ alookup (aggregateSessionsFromRaw sessRaw idx).byFi k
      = groupFoldSpec sessFiKf sessFiInit sessFiAdd
          ((aggregateSessionsFromRaw sessRaw idx).byInstance.map Prod.snd) k
    ∧ alookup (aggregatePlacementsFromRaw placRaw idx).byFi k
      = groupFoldSpec placFiKf placFiInit placFiAdd
          ((aggregatePlacementsFromRaw placRaw idx).byInstance.map Prod.snd) k := by
  refine ⟨?_, ?_, ?_⟩
  · cases gaRaw with
    | none => simp [aggregateGaFromRaw, groupFoldSpec, alookup]
    | some r =>
      cases herr : strTruthy r.error with
      | true => simp [aggregateGaFromRaw, herr, groupFoldSpec, alookup]
      | false =>
        simp only [aggregateGaFromRaw, herr, Bool.false_eq_true, if_false]
        exact alookup_foldByKey _ _ _ _ k
  · cases sessRaw with
    | none => simp [aggregateSessionsFromRaw, groupFoldSpec, alookup]
    | some r =>
      cases herr : strTruthy r.error with
      | true => simp [aggregateSessionsFromRaw, herr, groupFoldSpec, alookup]
      | false =>
        simp only [aggregateSessionsFromRaw, herr, Bool.false_eq_true, if_false]
        exact alookup_foldByKey _ _ _ _ k
  · cases placRaw with
    | none => simp [aggregatePlacementsFromRaw, groupFoldSpec, alookup]
    | some r =>
      cases herr : strTruthy r.error with
      | true => simp [aggregatePlacementsFromRaw, herr, groupFoldSpec, alookup]
      | false =>
        simp only [aggregatePlacementsFromRaw, herr, Bool.false_eq_true, if_false]
        exact alookup_foldByKey _ _ _ _ k

/-- C1 counterexample: with sessions `acme/a: Infinity`, `acme/a:
-Infinity`, `acme/b: 5`, both `byInstance` entries carry FI key `"acme"`,
the plain field-wise sum of their `total_jobs_sum` values is `NaN`, yet
`byFi["acme"].total_jobs_sum` is `5` — the claim's plain-sum reading fails
because the per-FI fold adds `entry.total_jobs_sum || 0`. -/
theorem byFi_plain_sum_counterexample :
    ((aggregateSessionsFromRaw (some { sessions := some [
        { fi_lookup_key := some "acme", _instance := some "a",
          total_jobs := some .inf },
        { fi_lookup_key := some "acme", _instance := some "a",
          total_jobs := some .ninf },
        { fi_lookup_key := some "acme", _instance := some "b",
          total_jobs := some (.num 5) }] }) emptyRegistryIndex).byInstance.map
      (fun p => (p.1, p.2.fi_lookup_norm, p.2.total_jobs_sum))
      = [("acme__a", "acme", .nan), ("acme__b", "acme", .num 5)])
    ∧ (alookup (aggregateSessionsFromRaw (some { sessions := some [
        { fi_lookup_key := some "acme", _instance := some "a",
          total_jobs := some .inf },
        { fi_lookup_key := some "acme", _instance := some "a",
          total_jobs := some .ninf },
        { fi_lookup_key := some "acme", _instance := some "b",
          total_jobs := some (.num 5) }] }) emptyRegistryIndex).byFi "acme").map
      (·.total_jobs_sum) = some (.num 5)
    ∧ JsNum.add JsNum.nan (JsNum.num 5) = JsNum.nan
    ∧ JsNum.nan ≠ JsNum.num 5 := by
  decide

/-- C10: in every placements aggregation and in every entry of the built
document, the `by_termination` counts sum to `total_placements`: each
record adds one placement and bumps exactly one termination key by one,
regardless of whether it counted as successful. -/
theorem placements_termination_partition (day : String) (gaRaw : Option GaRaw)
    (sessRaw : Option SessRaw) (placRaw : Option PlacRaw) (idx : RegistryIndex) :
    (∀ i b, (placBucketAdd i b).total_placements = b.total_placements + 1
      ∧ termSum (placBucketAdd i b).by_termination = termSum b.by_termination + 1)
    ∧ (∀ p ∈ (aggregatePlacementsFromRaw placRaw idx).byInstance,
        termSum p.2.by_termination = p.2.total_placements)
    ∧ (∀ p ∈ (aggregatePlacementsFromRaw placRaw idx).byFi,
        termSum p.2.by_termination = p.2.total_placements)
    ∧ (∀ p ∈ (dayDoc idx (fun _ => (gaRaw, sessRaw, placRaw)) day).fi,
        termSum p.2.placements.by_termination = p.2.placements.total_placements)
    ∧ (∀ p ∈ (dayDoc idx (fun _ => (gaRaw, sessRaw, placRaw)) day).fi_instances,
        termSum p.2.placements.by_termination = p.2.placements.total_placements) := by
  refine ⟨?_, aggPlacements_byInstance_termSum placRaw idx,
    aggPlacements_byFi_termSum placRaw idx, ?_, ?_⟩
  · intro i b
    constructor
    · simp [placBucketAdd]
    · simp [placBucketAdd, termSum_termBump]
  · intro p hp
    simp only [dayDoc, buildDailyDocument, List.mem_map] at hp
    obtain ⟨key, -, rfl⟩ := hp
    show termSum (mkFiEntry _ _ _ key).placements.by_termination
      = (mkFiEntry _ _ _ key).placements.total_placements
    simp only [mkFiEntry]
    cases halo : alookup (aggregatePlacementsFromRaw placRaw idx).byFi key with
    | none => simp [zeroPlacements, termSum]
    | some pb =>
      simp only [Option.getD_some]
      exact aggPlacements_byFi_termSum placRaw idx _ (alookup_mem halo)
  · intro p hp
    simp only [dayDoc, buildDailyDocument, List.mem_map] at hp
    obtain ⟨ikey, -, rfl⟩ := hp
    show termSum (mkFiInstanceEntry _ _ _ ikey).placements.by_termination
      = (mkFiInstanceEntry _ _ _ ikey).placements.total_placements
    simp only [mkFiInstanceEntry]
    cases halo : alookup (aggregatePlacementsFromRaw placRaw idx).byInstance ikey with
    | none => simp [zeroPlacements, termSum]
    | some pb =>
      simp only []
      exact aggPlacements_byInstance_termSum placRaw idx _ (alookup_mem halo)

/-- The GA raw day of the two-row scenario. -/
def gaScenarioRaw : GaRaw :=
  { rows := some [
      { host := some "acme.instance1.cardupdatr.app",
        page := some "/select-merchants", active_users := some (.num 5) },
      { host := some "acme.instance1.cardupdatr.app",
        page := some "/credential-entry", active_users := some (.num 2) }] }

/-- C5: the two-row GA scenario yields `fi["acme"].ga = {select_merchants:
5, user_data_collection: 0, credential_entry: 2}` with an empty registry;
and one GA row's page feeds exactly one stage counter — the three prefix
buckets are mutually exclusive (each implication carries no "not the
earlier prefix" guard), first match wins, and a page matching none leaves
all three counters unchanged. -/
theorem ga_scenario_and_page_bucketing :
    ((alookup (buildDailyDocument "2025-01-01"
        (aggregateGaFromRaw (some gaScenarioRaw) emptyRegistryIndex).byFi
        (aggregateGaFromRaw (some gaScenarioRaw) emptyRegistryIndex).byInstance
        (aggregateSessionsFromRaw none emptyRegistryIndex).byFi
        (aggregateSessionsFromRaw none emptyRegistryIndex).byInstance
        (aggregatePlacementsFromRaw none emptyRegistryIndex).byFi
        (aggregatePlacementsFromRaw none emptyRegistryIndex).byInstance).fi
        "acme").map (·.ga)
      = some { select_merchants := .num 5,
               user_data_collection := .num 0,
               credential_entry := .num 2 })
    ∧ (∀ (i : GaRowInfo) (b : GaBucket),
        (jsStartsWith i.page "/select-merchants" = true →
          (gaBucketAdd i b).select_merchants = b.select_merchants + i.count
          ∧ (gaBucketAdd i b).user_data_collection = b.user_data_collection
          ∧ (gaBucketAdd i b).credential_entry = b.credential_entry)
        ∧ (jsStartsWith i.page "/user-data-collection" = true →
          (gaBucketAdd i b).select_merchants = b.select_merchants
          ∧ (gaBucketAdd i b).user_data_collection = b.user_data_collection + i.count
          ∧ (gaBucketAdd i b).credential_entry = b.credential_entry)
        ∧ (jsStartsWith i.page "/credential-entry" = true →
          (gaBucketAdd i b).select_merchants = b.select_merchants
          ∧ (gaBucketAdd i b).user_data_collection = b.user_data_collection
          ∧ (gaBucketAdd i b).credential_entry = b.credential_entry + i.count)
        ∧ (jsStartsWith i.page "/select-merchants" = false →
          jsStartsWith i.page "/user-data-collection" = false →
          jsStartsWith i.page "/credential-entry" = false →
          (gaBucketAdd i b).select_merchants = b.select_merchants
          ∧ (gaBucketAdd i b).user_data_collection = b.user_data_collection
          ∧ (gaBucketAdd i b).credential_entry = b.credential_entry)) := by
  constructor
  · decide
  · intro i b
    refine ⟨?_, ?_, ?_, ?_⟩
    · intro h1
      cases hit : i.isTest <;> simp [gaBucketAdd, hit, h1]
    · intro h2
      have h1 : jsStartsWith i.page "/select-merchants" = false := by
        cases hh : jsStartsWith i.page "/select-merchants"
        · rfl
        · rcases jsStartsWith_either_prefix hh h2 with hx | hx <;>
            exact absurd (List.isPrefixOf_iff_prefix.mpr hx) (by decide)
      cases hit : i.isTest <;> simp [gaBucketAdd, hit, h1, h2]
    · intro h3
      have h1 : jsStartsWith i.page "/select-merchants" = false := by
        cases hh : jsStartsWith i.page "/select-merchants"
        · rfl
        · rcases jsStartsWith_either_prefix hh h3 with hx | hx <;>
            exact absurd (List.isPrefixOf_iff_prefix.mpr hx) (by decide)
      have h2 : jsStartsWith i.page "/user-data-collection" = false := by
        cases hh : jsStartsWith i.page "/user-data-collection"
        · rfl
        · rcases jsStartsWith_either_prefix hh h3 with hx | hx <;>
            exact absurd (List.isPrefixOf_iff_prefix.mpr hx) (by decide)
      cases hit : i.isTest <;> simp [gaBucketAdd, hit, h1, h2, h3]
    · intro h1 h2 h3
      cases hit : i.isTest <;> simp [gaBucketAdd, hit, h1, h2, h3]

/-- A concrete row info on a `/user-data-collection` page. -/
def gaUdcRowInfo : GaRowInfo :=
  { fiKey := "acme"
    instanceDisplay := "x"
    normalizedInstance := "x"
    isTest := false
    key := "acme__x"
    count := .num 2
    page := "/user-data-collection/step" }

theorem ga_scenario_and_page_bucketing_witness :
    (gaBucketAdd gaUdcRowInfo (gaBucketInit gaUdcRowInfo)).user_data_collection
      = (gaBucketInit gaUdcRowInfo).user_data_collection + JsNum.num 2 :=
  ((ga_scenario_and_page_bucketing.2 gaUdcRowInfo (gaBucketInit gaUdcRowInfo)).2.1
    (by decide)).2.1

/-- C6 counterexample: a session whose `total_jobs` is `Infinity`
contributes `Infinity` to `total_jobs_sum`, not `0` — `Number(x) || 0`
only zeroes `NaN` (and `0`), so "non-finite → 0" fails for infinities. -/
theorem session_job_sum_infinity_counterexample :
    ((alookup (aggregateSessionsFromRaw (some { sessions := some [
        { fi_lookup_key := some "acme", _instance := some "inst",
          total_jobs := some .inf }] }) emptyRegistryIndex).byInstance
      "acme__inst").map (·.total_jobs_sum) = some .inf)
    ∧ JsNum.inf ≠ JsNum.num 0 := by
  decide

/-- C6 (amended): every session's contribution to `total_jobs_sum` is
`Number(total_jobs) || 0` — the numeric value when it is truthy (non-zero
finite, or either infinity), and `0` when it is `NaN` (absent or
unparseable) or `0`; likewise for `successful_jobs_sum`. -/
theorem session_job_sum_contribution (idx : RegistryIndex) (s : SessionRec)
    (b : SessBucket) :
    (sessBucketAdd (sessionInfo idx s) b).total_jobs_sum
      = b.total_jobs_sum + jsOrZero (jsNumber s.total_jobs)
    ∧ (sessBucketAdd (sessionInfo idx s) b).successful_jobs_sum
      = b.successful_jobs_sum + jsOrZero (jsNumber s.successful_jobs)
    ∧ (∀ q : ℤ, q ≠ 0 → jsOrZero (jsNumber (some (.num q))) = .num q)
    ∧ jsOrZero (jsNumber (some (.num 0))) = .num 0
    ∧ jsOrZero (jsNumber (some .nan)) = .num 0
    ∧ jsOrZero (jsNumber none) = .num 0
    ∧ jsOrZero (jsNumber (some .inf)) = .inf
    ∧ jsOrZero (jsNumber (some .ninf)) = .ninf := by
  refine ⟨?_, ?_, ?_, by decide, by decide, by decide, by decide, by decide⟩
  · simp [sessBucketAdd, sessionInfo]
  · simp [sessBucketAdd, sessionInfo]
  · intro q hq
    simp [jsOrZero, jsNumber, JsNum.truthy, hq]

/-- Witness for the session job-sum contribution theorem at `total_jobs = 3`. -/
theorem session_job_sum_contribution_witness :
    jsOrZero (jsNumber (some (.num 3))) = JsNum.num 3 :=
  (session_job_sum_contribution emptyRegistryIndex {}
    (sessBucketInit (sessionInfo emptyRegistryIndex {}))).2.2.1 3 (by decide)

/-- C7 counterexample: a GA row with explicit `fi_key: "default"` and
instance `"Advancial-Prod"` (canonical `"advancialprod"`) stays aggregated
under FI key `"default"` — the GA aggregator never calls
`adjustFiLookupForInstance`, so this direction of the collapse does not
hold for "any of the three aggregators". -/
theorem ga_default_advancial_counterexample :
    ((aggregateGaFromRaw (some { rows := some [
        { fi_key := some "default", «instance» := some "Advancial-Prod",
          page := some "/select-merchants", active_users := some (.num 1) }] })
        emptyRegistryIndex).byFi.map Prod.fst = ["default"])
    ∧ alookup (aggregateGaFromRaw (some { rows := some [
        { fi_key := some "default", «instance» := some "Advancial-Prod",
          page := some "/select-merchants", active_users := some (.num 1) }] })
        emptyRegistryIndex).byFi "advancial-prod" = none
    ∧ canonicalInstance (some "Advancial-Prod") = "advancialprod" := by
  decide

/-- C7 (amended): the Sessions and Placements aggregators apply the
`default`/`advancial-prod` collapse in both directions — a record whose
resolved FI normalizes to `"default"` with canonical instance
`"advancialprod"` is grouped under `"advancial-prod"`, and a record whose
FI normalizes to `"advancial-prod"` with canonical instance `"default"`
gets its instance adjusted to `"advancial-prod"` while keeping the FI —
but the GA aggregator applies only the instance-adjustment direction. -/
theorem advancial_collapse_directions (idx : RegistryIndex) (s : SessionRec)
    (p : PlacementRec) (row : GaRow) :
    (normalizeFiKey (some (safeSessionFiKey s idx)) = "default" →
      canonicalInstance (some (sessionRawInstance s)) = "advancialprod" →
      (sessionInfo idx s).normalizedFi = "advancial-prod")
    ∧ (normalizeFiKey (some (safeSessionFiKey s idx)) = "advancial-prod" →
      canonicalInstance (some (sessionRawInstance s)) = "default" →
      (sessionInfo idx s).normalizedFi = "advancial-prod"
      ∧ (sessionInfo idx s).normalizedInstance = "advancialprod")
    ∧ (normalizeFiKey (some (safePlacementFiKey p idx)) = "default" →
      canonicalInstance (some (placementRawInstance p)) = "advancialprod" →
      (placementInfo idx p).normalizedFi = "advancial-prod")
    ∧ (normalizeFiKey (some (safePlacementFiKey p idx)) = "advancial-prod" →
      canonicalInstance (some (placementRawInstance p)) = "default" →
      (placementInfo idx p).normalizedFi = "advancial-prod"
      ∧ (placementInfo idx p).normalizedInstance = "advancialprod")
    ∧ (∀ fk, gaRowResolvedFi idx row = some fk → fk ≠ "" →
      normalizeFiKey (some fk) = "advancial-prod" →
      canonicalInstance (some (gaRowRawInstance row)) = "default" →
      (gaRowInfo idx row).map (·.normalizedInstance) = some "advancialprod"
      ∧ (gaRowInfo idx row).map (·.fiKey) = some fk) := by
  refine ⟨?_, ?_, ?_, ?_, ?_⟩
  · intro h1 h2
    have hAI : adjustInstanceForFi (safeSessionFiKey s idx) (sessionRawInstance s)
        = sessionRawInstance s := by
      rw [adjustInstanceForFi, if_neg]
      rintro ⟨hc, -⟩
      rw [h1] at hc
      exact absurd hc (by decide)
    have hAF : adjustFiLookupForInstance (safeSessionFiKey s idx) (sessionRawInstance s)
        = "advancial-prod" := by
      rw [adjustFiLookupForInstance, if_pos ⟨h1, h2⟩]
    show (sessionInfo idx s).normalizedFi = "advancial-prod"
    simp only [sessionInfo, hAI, hAF]
    rw [firstTruthy_cons_ne (by decide) _]
    decide
  · intro h1 h2
    have hAI : adjustInstanceForFi (safeSessionFiKey s idx) (sessionRawInstance s)
        = "advancial-prod" := by
      rw [adjustInstanceForFi, if_pos ⟨h1, h2⟩]
    have hAF : adjustFiLookupForInstance (safeSessionFiKey s idx) "advancial-prod"
        = safeSessionFiKey s idx := by
      rw [adjustFiLookupForInstance, if_neg]
      rintro ⟨hc, -⟩
      rw [h1] at hc
      exact absurd hc (by decide)
    constructor
    · show (sessionInfo idx s).normalizedFi = "advancial-prod"
      simp only [sessionInfo, hAI, hAF]
      rw [firstTruthy_cons_ne (safeSessionFiKey_ne_empty s idx) _]
      simpa using h1
    · show (sessionInfo idx s).normalizedInstance = "advancialprod"
      simp only [sessionInfo, hAI]
      decide
  · intro h1 h2
    have hAI : adjustInstanceForFi (safePlacementFiKey p idx) (placementRawInstance p)
        = placementRawInstance p := by
      rw [adjustInstanceForFi, if_neg]
      rintro ⟨hc, -⟩
      rw [h1] at hc
      exact absurd hc (by decide)
    have hAF : adjustFiLookupForInstance (safePlacementFiKey p idx)
        (placementRawInstance p) = "advancial-prod" := by
      rw [adjustFiLookupForInstance, if_pos ⟨h1, h2⟩]
    show (placementInfo idx p).normalizedFi = "advancial-prod"
    simp only [placementInfo, hAI, hAF]
    rw [firstTruthy_cons_ne (by decide) _]
    simp only [Option.getD_some]
    decide
  · intro h1 h2
    have hAI : adjustInstanceForFi (safePlacementFiKey p idx) (placementRawInstance p)
        = "advancial-prod" := by
      rw [adjustInstanceForFi, if_pos ⟨h1, h2⟩]
    have hAF : adjustFiLookupForInstance (safePlacementFiKey p idx) "advancial-prod"
        = safePlacementFiKey p idx := by
      rw [adjustFiLookupForInstance, if_neg]
      rintro ⟨hc, -⟩
      rw [h1] at hc
      exact absurd hc (by decide)
    constructor
    · show (placementInfo idx p).normalizedFi = "advancial-prod"
      simp only [placementInfo, hAI, hAF]
      rw [firstTruthy_cons_ne (safePlacementFiKey_ne_empty p idx) _]
      simpa using h1
    · show (placementInfo idx p).normalizedInstance = "advancialprod"
      simp only [placementInfo, hAI]
      decide
  · intro fk hres hfkne h1 h2
    have hAI : adjustInstanceForFi fk (gaRowRawInstance row) = "advancial-prod" := by
      rw [adjustInstanceForFi, if_pos ⟨h1, h2⟩]
    have hinfo : gaRowInfo idx row = some
        { fiKey := fk
          instanceDisplay := formatInstanceDisplay (some "advancial-prod")
          normalizedInstance :=
            canonicalInstance (some (formatInstanceDisplay (some "advancial-prod")))
          isTest := isTestInstanceName
            (canonicalInstance (some (formatInstanceDisplay (some "advancial-prod"))))
          key := makeFiInstanceKey fk
            (canonicalInstance (some (formatInstanceDisplay (some "advancial-prod"))))
          count := (coalesce [row.active_users, row.activeUsers, row.views,
            row.screenPageViews]).getD (JsNum.num 0)
          page := (firstTruthy [row.page, row.pagePath, row.pathname]).getD "" } := by
      simp only [gaRowInfo, hres, hAI]
      rw [if_neg hfkne]
    rw [hinfo]
    constructor
    · simp only [Option.map_some']
      decide
    · simp only [Option.map_some']


/-- A one-record accumulation is a one-bucket map (or empty if skipped). -/
theorem foldByKey_singleton {γ β : Type} (kf : γ → Option String) (init : γ → β)
    (add : γ → β → β) (e : γ) :
    foldByKey kf init add [e] = match kf e with
      | none => []
      | some k => [(k, add e (init e))] := by
  cases hkf : kf e <;> simp [foldByKey, foldByKeyStep, hkf, aupsert]

theorem alookup_map_self {β : Type} (f : String → β) (l : List String) (k : String)
    (h : k ∈ l) : (alookup (l.map fun x => (x, f x)) k).isSome = true := by
  induction l with
  | nil => simp at h
  | cons x xs ih =>
    by_cases hx : x = k
    · subst hx
      simp [alookup]
    · rcases List.mem_cons.mp h with hh | hh
      · exact absurd hh.symm hx
      · simp [alookup, hx, ih hh]

theorem mem_dedupKeys_go :
    ∀ (l acc : List String) (k : String), k ∈ acc ∨ k ∈ l →
      k ∈ l.foldl (fun acc k => if acc.contains k then acc else acc ++ [k]) acc := by
  intro l
  induction l with
  | nil =>
    intro acc k h
    rcases h with h | h
    · exact h
    · simp at h
  | cons x xs ih =>
    intro acc k h
    rw [List.foldl_cons]
    apply ih
    by_cases hc : acc.contains x
    · rw [if_pos hc]
      rcases h with h | h
      · exact Or.inl h
      · rcases List.mem_cons.mp h with rfl | hh
        · exact Or.inl (by simpa using hc)
        · exact Or.inr hh
    · rw [if_neg hc]
      rcases h with h | h
      · exact Or.inl (List.mem_append_left _ h)
      · rcases List.mem_cons.mp h with rfl | hh
        · exact Or.inl (List.mem_append_right _ (by simp))
        · exact Or.inr hh

theorem mem_dedupKeys {l : List String} {k : String} (h : k ∈ l) : k ∈ dedupKeys l :=
  mem_dedupKeys_go l [] k (Or.inr h)

/-- A concrete session triggering the FI-to-instance collapse direction. -/
def advSession : SessionRec :=
  { fi_lookup_key := some "advancial-prod", _instance := some "Default" }

theorem advancial_collapse_directions_witness :
    (sessionInfo emptyRegistryIndex advSession).normalizedFi = "advancial-prod"
    ∧ (sessionInfo emptyRegistryIndex advSession).normalizedInstance = "advancialprod" :=
  (advancial_collapse_directions emptyRegistryIndex advSession {} {}).2.1
    (by decide) (by decide)

/-- C8 counterexample: a GA row with no FI key, no host and no FI name is
silently dropped — both aggregator maps and the built document stay
empty, instead of the record landing under `"unknown_fi"`. -/
theorem ga_missing_fi_dropped_counterexample :
    (aggregateGaFromRaw (some { rows := some [
        { page := some "/select-merchants", active_users := some (.num 5) }] })
      emptyRegistryIndex).byInstance = []
    ∧ (aggregateGaFromRaw (some { rows := some [
        { page := some "/select-merchants", active_users := some (.num 5) }] })
      emptyRegistryIndex).byFi = []
    ∧ (dayDoc emptyRegistryIndex (fun _ => (some { rows := some [
        { page := some "/select-merchants", active_users := some (.num 5) }] },
        none, none)) "2025-01-01").fi = [] := by
  decide


/-- A one-record accumulation whose key function fires is a one-bucket map. -/
theorem foldByKey_singleton_some {γ β : Type} (kf : γ → Option String) (init : γ → β)
    (add : γ → β → β) (e : γ) {k : String} (h : kf e = some k) :
    foldByKey kf init add [e] = [(k, add e (init e))] := by
  simp [foldByKey, foldByKeyStep, h, aupsert]

set_option maxHeartbeats 1600000 in
/-- C8 (amended): a session or placement record lacking every
FI-identifying field resolves to `"unknown_fi"` and appears under that key
in the aggregator's `byFi`, in the document's `fi`, and (via its instance
key `unknown_fi__<instance>`) in `fi_instances`; a GA row lacking every
FI-identifying field is skipped instead of falling back. -/
theorem unknown_fi_fallback (idx : RegistryIndex) (day : String) (s : SessionRec)
    (p : PlacementRec) (row : GaRow) :
    (s.financial_institution_lookup_key = none → s.fi_lookup_key = none →
      s.fi_name = none → s.financial_institution = none →
      s.financial_institution_name = none → s.institution = none →
      safeSessionFiKey s idx = "unknown_fi"
      ∧ (sessionInfo idx s).normalizedFi = "unknown_fi"
      ∧ (sessionInfo idx s).key
          = "unknown_fi__" ++ (sessionInfo idx s).normalizedInstance
      ∧ (alookup (aggregateSessionsFromRaw (some { sessions := some [s] })
          idx).byFi "unknown_fi").isSome = true
      ∧ (alookup (dayDoc idx
          (fun _ => (none, some { sessions := some [s] }, none)) day).fi
          "unknown_fi").isSome = true
      ∧ (alookup (dayDoc idx
          (fun _ => (none, some { sessions := some [s] }, none)) day).fi_instances
          (sessionInfo idx s).key).isSome = true)
    ∧ (p.fi_lookup_key = none → p.financial_institution_lookup_key = none →
      p.fi_name = none → p.financial_institution = none → p.issuer_name = none →
      safePlacementFiKey p idx = "unknown_fi"
      ∧ (placementInfo idx p).normalizedFi = "unknown_fi"
      ∧ (placementInfo idx p).key
          = "unknown_fi__" ++ (placementInfo idx p).normalizedInstance
      ∧ (alookup (aggregatePlacementsFromRaw (some { placements := some [p] })
          idx).byFi "unknown_fi").isSome = true
      ∧ (alookup (dayDoc idx
          (fun _ => (none, none, some { placements := some [p] })) day).fi
          "unknown_fi").isSome = true
      ∧ (alookup (dayDoc idx
          (fun _ => (none, none, some { placements := some [p] })) day).fi_instances
          (placementInfo idx p).key).isSome = true)
    ∧ (row.fi_key = none → row.fi_lookup_key = none → row.fi_name = none →
      row.host = none → row.hostname = none →
      gaRowInfo idx row = none
      ∧ aggregateGaFromRaw (some { rows := some [row] }) idx = ⟨[], []⟩) := by
  refine ⟨?_, ?_, ?_⟩
  · intro h1 h2 h3 h4 h5 h6
    have hkey : safeSessionFiKey s idx = "unknown_fi" := by
      simp [safeSessionFiKey, coalesce, firstTruthy, resolveFiKey,
        h1, h2, h3, h4, h5, h6]
    have hAI : adjustInstanceForFi "unknown_fi" (sessionRawInstance s)
        = sessionRawInstance s := by
      rw [adjustInstanceForFi, if_neg]
      rintro ⟨hc, -⟩
      exact absurd hc (by decide)
    have hAF : adjustFiLookupForInstance "unknown_fi" (sessionRawInstance s)
        = "unknown_fi" := by
      rw [adjustFiLookupForInstance, if_neg]
      rintro ⟨hc, -⟩
      exact absurd hc (by decide)
    have hfi : (sessionInfo idx s).normalizedFi = "unknown_fi" := by
      simp only [sessionInfo, hkey, hAI, hAF]
      rw [firstTruthy_cons_ne (by decide) _]
      decide
    have hkeyeq : (sessionInfo idx s).key
        = "unknown_fi__" ++ (sessionInfo idx s).normalizedInstance := by
      have hk0 : (sessionInfo idx s).key
          = makeFiInstanceKey (sessionInfo idx s).normalizedFi
              (sessionInfo idx s).normalizedInstance := rfl
      have hcanon : canonicalInstance (some ((sessionInfo idx s).normalizedInstance))
          = (sessionInfo idx s).normalizedInstance :=
        canonicalInstance_idem_aux ((sessionInfo idx s).instanceDisplay)
      rw [hk0, hfi, makeFiInstanceKey, hcanon,
        show lowerStr "unknown_fi" = "unknown_fi" from by decide,
        show ("unknown_fi" ++ "__" : String) = "unknown_fi__" from by decide]
    have hBI : (aggregateSessionsFromRaw (some { sessions := some [s] }) idx).byInstance
        = [((sessionInfo idx s).key,
            sessBucketAdd (sessionInfo idx s) (sessBucketInit (sessionInfo idx s)))] := by
      rw [aggregateSessionsFromRaw]
      rw [if_neg (by simp [strTruthy])]
      simp only [Option.getD_some, List.map_cons, List.map_nil]
      exact foldByKey_singleton_some _ _ _ _ rfl
    have hproj : ∀ (i : SessInfo),
        (sessBucketAdd i (sessBucketInit i)).fi_lookup_norm = i.normalizedFi := by
      intro i
      rfl
    have hkfB : sessFiKf (sessBucketAdd (sessionInfo idx s)
        (sessBucketInit (sessionInfo idx s))) = some "unknown_fi" := by
      rw [sessFiKf, hproj (sessionInfo idx s), hfi]
      simp
    have hBF : (aggregateSessionsFromRaw (some { sessions := some [s] }) idx).byFi
        = [("unknown_fi",
            sessFiAdd (sessBucketAdd (sessionInfo idx s)
              (sessBucketInit (sessionInfo idx s)))
              (sessFiInit (sessBucketAdd (sessionInfo idx s)
                (sessBucketInit (sessionInfo idx s)))))] := by
      rw [aggregateSessionsFromRaw]
      rw [if_neg (by simp [strTruthy])]
      simp only [Option.getD_some, List.map_cons, List.map_nil]
      rw [foldByKey_singleton_some (fun i => some i.key) sessBucketInit sessBucketAdd
        (sessionInfo idx s) rfl]
      simp only [List.map_cons, List.map_nil]
      exact foldByKey_singleton_some _ _ _ _ hkfB
    refine ⟨hkey, hfi, hkeyeq, ?_, ?_, ?_⟩
    · rw [hBF]
      simp [alookup]
    · simp only [dayDoc, buildDailyDocument]
      rw [show aggregateGaFromRaw none idx = ⟨[], []⟩ from rfl,
        show aggregatePlacementsFromRaw none idx = ⟨[], []⟩ from rfl, hBF]
      apply alookup_map_self
      apply mem_dedupKeys
      simp
    · simp only [dayDoc, buildDailyDocument]
      rw [show aggregateGaFromRaw none idx = ⟨[], []⟩ from rfl,
        show aggregatePlacementsFromRaw none idx = ⟨[], []⟩ from rfl, hBI]
      apply alookup_map_self
      apply mem_dedupKeys
      simp
  · intro h1 h2 h3 h4 h5
    have hkey : safePlacementFiKey p idx = "unknown_fi" := by
      simp [safePlacementFiKey, firstTruthy, resolveFiKey, h1, h2, h3, h4, h5]
    have hAI : adjustInstanceForFi "unknown_fi" (placementRawInstance p)
        = placementRawInstance p := by
      rw [adjustInstanceForFi, if_neg]
      rintro ⟨hc, -⟩
      exact absurd hc (by decide)
    have hAF : adjustFiLookupForInstance "unknown_fi" (placementRawInstance p)
        = "unknown_fi" := by
      rw [adjustFiLookupForInstance, if_neg]
      rintro ⟨hc, -⟩
      exact absurd hc (by decide)
    have hfi : (placementInfo idx p).normalizedFi = "unknown_fi" := by
      simp only [placementInfo, hkey, hAI, hAF]
      rw [firstTruthy_cons_ne (by decide) _]
      simp only [Option.getD_some]
      decide
    have hkeyeq : (placementInfo idx p).key
        = "unknown_fi__" ++ (placementInfo idx p).normalizedInstance := by
      have hk0 : (placementInfo idx p).key
          = makeFiInstanceKey (placementInfo idx p).normalizedFi
              (placementInfo idx p).normalizedInstance := rfl
      have hcanon : canonicalInstance (some ((placementInfo idx p).normalizedInstance))
          = (placementInfo idx p).normalizedInstance :=
        canonicalInstance_idem_aux ((placementInfo idx p).instanceDisplay)
      rw [hk0, hfi, makeFiInstanceKey, hcanon,
        show lowerStr "unknown_fi" = "unknown_fi" from by decide,
        show ("unknown_fi" ++ "__" : String) = "unknown_fi__" from by decide]
    have hBI : (aggregatePlacementsFromRaw (some { placements := some [p] }) idx).byInstance
        = [((placementInfo idx p).key,
            placBucketAdd (placementInfo idx p) (placBucketInit (placementInfo idx p)))] := by
      rw [aggregatePlacementsFromRaw]
      rw [if_neg (by simp [strTruthy])]
      simp only [Option.getD_some, List.map_cons, List.map_nil]
      exact foldByKey_singleton_some _ _ _ _ rfl
    have hproj : ∀ (i : PlacInfo),
        (placBucketAdd i (placBucketInit i)).fi_lookup_norm = i.normalizedFi := by
      intro i
      rfl
    have hkfB : placFiKf (placBucketAdd (placementInfo idx p)
        (placBucketInit (placementInfo idx p))) = some "unknown_fi" := by
      rw [placFiKf, hproj (placementInfo idx p), hfi]
      simp
    have hBF : (aggregatePlacementsFromRaw (some { placements := some [p] }) idx).byFi
        = [("unknown_fi",
            placFiAdd (placBucketAdd (placementInfo idx p)
              (placBucketInit (placementInfo idx p)))
              (placFiInit (placBucketAdd (placementInfo idx p)
                (placBucketInit (placementInfo idx p)))))] := by
      rw [aggregatePlacementsFromRaw]
      rw [if_neg (by simp [strTruthy])]
      simp only [Option.getD_some, List.map_cons, List.map_nil]
      rw [foldByKey_singleton_some (fun i => some i.key) placBucketInit placBucketAdd
        (placementInfo idx p) rfl]
      simp only [List.map_cons, List.map_nil]
      exact foldByKey_singleton_some _ _ _ _ hkfB
    refine ⟨hkey, hfi, hkeyeq, ?_, ?_, ?_⟩
    · rw [hBF]
      simp [alookup]
    · simp only [dayDoc, buildDailyDocument]
      rw [show aggregateGaFromRaw none idx = ⟨[], []⟩ from rfl,
        show aggregateSessionsFromRaw none idx = ⟨[], []⟩ from rfl, hBF]
      apply alookup_map_self
      apply mem_dedupKeys
      simp
    · simp only [dayDoc, buildDailyDocument]
      rw [show aggregateGaFromRaw none idx = ⟨[], []⟩ from rfl,
        show aggregateSessionsFromRaw none idx = ⟨[], []⟩ from rfl, hBI]
      apply alookup_map_self
      apply mem_dedupKeys
      simp
  · intro h1 h2 h3 h4 h5
    have hhost : gaRowHost row = "" := by
      simp [gaRowHost, firstTruthy, h4, h5]
    have hinfo : gaRowInfo idx row = none := by
      simp [gaRowInfo, gaRowResolvedFi, hhost, resolveFiFromHost, resolveFiKey,
        firstTruthy, h1, h2, h3,
        show jsEndsWith "" ".cardupdatr.app" = false from by decide]
    refine ⟨hinfo, ?_⟩
    rw [aggregateGaFromRaw]
    rw [if_neg (by simp [strTruthy])]
    simp only [Option.getD_some, List.filterMap_cons, hinfo, List.filterMap_nil]
    rfl

/-- A session record carrying only an instance name and a job count. -/
def c8session : SessionRec := { _instance := some "Inst One", total_jobs := some (.num 3) }

theorem unknown_fi_fallback_witness :
    safeSessionFiKey c8session emptyRegistryIndex = "unknown_fi"
    ∧ (alookup (dayDoc emptyRegistryIndex
        (fun _ => (none, some { sessions := some [c8session] }, none))
        "2025-02-01").fi "unknown_fi").isSome = true :=
  ⟨((unknown_fi_fallback emptyRegistryIndex "2025-02-01" c8session {} {}).1
      rfl rfl rfl rfl rfl rfl).1,
   ((unknown_fi_fallback emptyRegistryIndex "2025-02-01" c8session {} {}).1
      rfl rfl rfl rfl rfl rfl).2.2.2.2.1⟩

/-- C2 counterexample: with all three raw payloads present but holding
zero records, the Range Driver still writes a document for the day (with
all source flags false and empty maps) — the day is not skipped;
`allSourcesMissing` only fires when the payloads are absent. -/
theorem range_zero_records_counterexample :
    (buildDailyFromRawRange emptyRegistryIndex
      (fun _ => (some { rows := some [] }, some { sessions := some [] },
        some { placements := some [] }))
      (fun _ => "t") ["2025-01-01"] (fun _ => none)) (dailyFilePath "2025-01-01")
    = some (serializeDaily
        { date := "2025-01-01", src_ga := false, src_sessions := false,
          src_placements := false, fi := [], fi_instances := [] }) := by
  decide

/-- C2 (amended): a day is skipped (file system untouched) exactly when
all three raw payloads are absent; when all three are present but each
holds zero records, a document is still written — with all `sources`
flags false and empty `fi`/`fi_instances`. -/
theorem range_skips_only_when_all_absent (idx : RegistryIndex) (raws : RawStore)
    (nd : String → String) (fs : Fs) (day : String) (hIso : isoDayLike day = true) :
    (raws day = (none, none, none) → processDay idx raws nd fs day = fs)
    ∧ (∀ g sr pr, raws day = (some g, some sr, some pr) →
        g.rows = some [] → sr.sessions = some [] → pr.placements = some [] →
        g.error = none → sr.error = none → pr.error = none →
        (processDay idx raws nd fs day) (dailyFilePath day)
          = some (serializeDaily
              { date := day, src_ga := false, src_sessions := false,
                src_placements := false, fi := [], fi_instances := [] })) := by
  constructor
  · intro h
    simp [processDay, h]
  · intro g sr pr hr hg hs hp he1 he2 he3
    have hga : aggregateGaFromRaw (some g) idx = ⟨[], []⟩ := by
      rw [aggregateGaFromRaw]
      rw [if_neg (by simp [strTruthy, he1])]
      simp [hg, foldByKey]
    have hsess : aggregateSessionsFromRaw (some sr) idx = ⟨[], []⟩ := by
      rw [aggregateSessionsFromRaw]
      rw [if_neg (by simp [strTruthy, he2])]
      simp [hs, foldByKey]
    have hplac : aggregatePlacementsFromRaw (some pr) idx = ⟨[], []⟩ := by
      rw [aggregatePlacementsFromRaw]
      rw [if_neg (by simp [strTruthy, he3])]
      simp [hp, foldByKey]
    have hdoc : dayDoc idx raws day
        = { date := day, src_ga := false, src_sessions := false,
            src_placements := false, fi := [], fi_instances := [] } := by
      simp only [dayDoc, hr]
      rw [hga, hsess, hplac]
      rfl
    have hstep : processDay idx raws nd fs day
        = writeDailyFile fs day (dayDoc idx raws day) (nd day) := by
      simp [processDay, hr]
    rw [hstep, hdoc]
    exact writeDailyFile_target fs _ _ hIso

theorem range_skips_only_when_all_absent_witness :
    processDay emptyRegistryIndex (fun _ => (none, none, none)) (fun _ => "t")
      (fun _ => none) "2025-01-01" = (fun _ => none)
    ∧ (processDay emptyRegistryIndex
        (fun _ => (some { rows := some [] }, some { sessions := some [] },
          some { placements := some [] })) (fun _ => "t")
        (fun _ => none) "2025-01-01") (dailyFilePath "2025-01-01")
      = some (serializeDaily
          { date := "2025-01-01", src_ga := false, src_sessions := false,
            src_placements := false, fi := [], fi_instances := [] }) :=
  ⟨(range_skips_only_when_all_absent emptyRegistryIndex (fun _ => (none, none, none))
      (fun _ => "t") (fun _ => none) "2025-01-01" (by decide)).1 rfl,
   (range_skips_only_when_all_absent emptyRegistryIndex
      (fun _ => (some { rows := some [] }, some { sessions := some [] },
        some { placements := some [] })) (fun _ => "t") (fun _ => none)
      "2025-01-01" (by decide)).2 _ _ _ rfl rfl rfl rfl rfl rfl rfl⟩

/-- C9: the write is temp-then-rename: the temp sibling never collides
with the dated target; while the temp file is being written the target
still holds its previous contents; after the rename the target holds
exactly the complete serialized document; and `writeDailyFile` is exactly
this write-then-rename composition — so a reader of the target only ever
sees the old complete document or the new complete one. -/
theorem writeDailyFile_atomic_visibility (fs : Fs) (day : String) (doc : DailyDoc)
    (nd : String) (hIso : isoDayLike day = true) :
    tmpFilePath day nd ≠ dailyFilePath day
    ∧ (fsWrite fs (tmpFilePath day nd) (serializeDaily doc)) (dailyFilePath day)
      = fs (dailyFilePath day)
    ∧ (writeDailyFile fs day doc nd) (dailyFilePath day) = some (serializeDaily doc)
    ∧ writeDailyFile fs day doc nd
      = fsRename (fsWrite fs (tmpFilePath day nd) (serializeDaily doc))
          (tmpFilePath day nd) (dailyFilePath day) := by
  have hne : dailyFilePath day ≠ tmpFilePath day nd := dailyFilePath_ne_tmp hIso
  refine ⟨fun hh => hne hh.symm, ?_, writeDailyFile_target fs doc nd hIso, rfl⟩
  simp [fsWrite, hne]

theorem writeDailyFile_atomic_visibility_witness :
    (writeDailyFile (fun _ => none) "2025-01-01"
      { date := "2025-01-01", src_ga := false, src_sessions := false,
        src_placements := false, fi := [], fi_instances := [] } "t")
      (dailyFilePath "2025-01-01")
    = some (serializeDaily
        { date := "2025-01-01", src_ga := false, src_sessions := false,
          src_placements := false, fi := [], fi_instances := [] }) :=
  (writeDailyFile_atomic_visibility (fun _ => none) "2025-01-01"
    { date := "2025-01-01", src_ga := false, src_sessions := false,
      src_placements := false, fi := [], fi_instances := [] } "t"
    (by decide)).2.2.1

/-- C3: rebuilding a range is deterministic and idempotent at every
(validated) date's target file: the result is independent of the
pid/timestamp/random temp-name material, a second run over the same raws
and registry leaves the same bytes (the second write fully overwrites the
first), and whenever the day has any raw data the target holds exactly
the serialized day document — a pure function of registry and raws, so no
timestamp or other nondeterminism enters the document content. -/
theorem range_rebuild_deterministic (idx : RegistryIndex) (raws : RawStore)
    (nd1 nd2 : String → String) (dates : List String) (fs : Fs) (day : String)
    (hIso : isoDayLike day = true) (hmem : day ∈ dates) :
    (buildDailyFromRawRange idx raws nd1 dates fs) (dailyFilePath day)
      = (buildDailyFromRawRange idx raws nd2 dates fs) (dailyFilePath day)
    ∧ (buildDailyFromRawRange idx raws nd2 dates
        (buildDailyFromRawRange idx raws nd1 dates fs)) (dailyFilePath day)
      = (buildDailyFromRawRange idx raws nd1 dates fs) (dailyFilePath day)
    ∧ (raws day ≠ (none, none, none) →
        (buildDailyFromRawRange idx raws nd1 dates fs) (dailyFilePath day)
          = some (serializeDaily (dayDoc idx raws day))) := by
  have h1 := runRange_lookup idx raws nd1 hIso dates fs hmem
  have h2 := runRange_lookup idx raws nd2 hIso dates fs hmem
  have h3 := runRange_lookup idx raws nd2 hIso dates
    (buildDailyFromRawRange idx raws nd1 dates fs) hmem
  refine ⟨?_, ?_, ?_⟩
  · rw [h1, h2]
  · rw [h3, h1]
    by_cases hskip : raws day = (none, none, none) <;> simp [hskip]
  · intro hne
    rw [h1, if_neg hne]

theorem range_rebuild_deterministic_witness :
    (buildDailyFromRawRange emptyRegistryIndex
      (fun _ => (some { rows := some [] }, none, none)) (fun _ => "t1")
      ["2025-01-02"] (fun _ => none)) (dailyFilePath "2025-01-02")
    = some (serializeDaily (dayDoc emptyRegistryIndex
        (fun _ => (some { rows := some [] }, none, none)) "2025-01-02")) :=
  (range_rebuild_deterministic emptyRegistryIndex
    (fun _ => (some { rows := some [] }, none, none)) (fun _ => "t1")
    (fun _ => "t2") ["2025-01-02"] (fun _ => none) "2025-01-02"
    (by decide) (by decide)).2.2 (by decide)

/-- A billable placement for one FI. -/
def billablePlacement : PlacementRec :=
  { fi_lookup_key := some "acme", termination_type := some "billable" }

/-- The bucket that placement produces. -/
def billableBucket : PlacBucket :=
  { fi_lookup_key := "acme"
    fi_lookup_norm := "acme"
    «instance» := "unknown"
    instance_norm := "unknown"
    is_test := false
    total_placements := 1
    successful_placements := 1
    by_termination := [("BILLABLE", 1)] }

theorem placements_termination_partition_witness :
    termSum billableBucket.by_termination = billableBucket.total_placements :=
  (placements_termination_partition "2025-03-01" none none
    (some { placements := some [billablePlacement] }) emptyRegistryIndex).2.1
    ("acme__unknown", billableBucket) (by decide)
